import Mathlib

/-!
# emcore: the ImageIO session of `src/image/image.cpp`

A shallow embedding of the image session (open / close / createFile / read /
write) together with the data it touches.  Stateful C++ code is written in
explicit state-passing style: every method takes the state before the call and
returns the state after it together with the exception thrown, if any.  State
changes made before a `throw` are kept, as in C++.

`size_t` values are natural numbers and every `size_t` operation is reduced
modulo `2 ^ 64`.  Calls into the C library (`fopen`, `fseek`, `fread`,
`fwrite`, `fclose`) are answered by an environment `Env` and recorded, in
order, in a log of file operations.
-/

namespace em

/-! ## size_t arithmetic -/

/-- Number of values of a `size_t` (an LP64 platform). -/
def SIZE_MOD : Nat := 2 ^ 64

/-- Addition of two `size_t` values. -/
def szAdd (a b : Nat) : Nat := (a + b) % SIZE_MOD

/-- Multiplication of two `size_t` values. -/
def szMul (a b : Nat) : Nat := (a * b) % SIZE_MOD

/-- Subtraction of two `size_t` values (wraps around below zero). -/
def szSub (a b : Nat) : Nat := (a % SIZE_MOD + (SIZE_MOD - b % SIZE_MOD)) % SIZE_MOD

/-! ## Types, dimensions, images -/

/-- The class `Type` of `type.h`: one singleton instance per concrete kind,
handled through `ConstTypePtr` and compared by identity.  An instance is
represented by its name and its size in bytes. -/
structure EmType where
  name : String
  size : Nat
deriving DecidableEq, Repr

/-- Accessor `Type::getSize` of `type.h`. -/
def EmType.getSize (t : EmType) : Nat := t.size

/-- The pointer type `ConstTypePtr` of `type.h`; `none` is `nullptr`. -/
abbrev ConstTypePtr := Option EmType

/-- The singleton `TypeInt32 = Type::get<int32_t>()` of `type.h`. -/
def TypeInt32 : EmType := ⟨"int32", 4⟩

/-- The singleton `TypeFloat = Type::get<float>()` of `type.h`. -/
def TypeFloat : EmType := ⟨"float", 4⟩

/-- Modelled from the spec: `ArrayDim` of `em/base/array.h`, which is not part
of the sources.  `x`, `y`, `z` are the dimensions of one item and `n` is the
number of items (the spec's `dim.count`). -/
structure ArrayDim where
  x : Nat
  y : Nat
  z : Nat
  n : Nat
deriving DecidableEq, Repr

/-- Modelled from the spec: `ArrayDim::getItemSize` of `em/base/array.h`, the
number of elements of one item (the spec's `dim.elementsPerItem`), computed in
`size_t`. -/
def ArrayDim.getItemSize (d : ArrayDim) : Nat := szMul (szMul d.x d.y) d.z

/-- Modelled from the spec: `Object` of `em/base/object.h`, which is not part
of the sources: a `Type` handle plus the owned bytes of the value. -/
structure Object where
  type : ConstTypePtr
  value : List Nat
deriving DecidableEq, Repr

/-- The dictionary `ObjectDict` (a map from strings to objects) used for image
headers. -/
abbrev ObjectDict := List (String × Object)

/-- The class `Image`: the `Array` part (dimensions, element type, data bytes)
and the `ImageImpl` part (`headers`, where `headers[0]` is the main header). -/
structure Image where
  dim : ArrayDim
  type : ConstTypePtr
  data : List Nat
  headers : List ObjectDict
deriving DecidableEq, Repr

/-- Constructor `ImageImpl::ImageImpl` together with `Image::Image()`: an empty
array and one header dictionary. -/
def Image.empty : Image := ⟨⟨0, 0, 0, 0⟩, none, [], [[]]⟩

/-- Accessor `Image::getType` (inherited from `Array`). -/
def Image.getType (img : Image) : ConstTypePtr := img.type

/-- Accessor `Image::getDataPointer` (inherited from `Array`): the bytes the
returned pointer points to. -/
def Image.getDataPointer (img : Image) : List Nat := img.data

/-- Modelled from the spec: `Array::resize(adim, type)` of `em/base/array.h`,
which is not part of the sources.  The array takes the given dimensions and,
when `type` is not null, the given element type; its storage is allocated
anew.  The content of fresh storage is not specified; here it is zero bytes. -/
def Image.resize (img : Image) (adim : ArrayDim) (type : ConstTypePtr) : Image :=
  let t : ConstTypePtr := match type with
    | some ty => some ty
    | none => img.type
  let elemSize : Nat := match t with
    | some ty => ty.getSize
    | none => 0
  { img with
    dim := adim
    type := t
    data := List.replicate (szMul (szMul adim.getItemSize adim.n) elemSize) 0 }

/-- Assignment `Image::operator=`: the array part and the header list are
copied from `other`. -/
def Image.assign (_self : Image) (other : Image) : Image :=
  { dim := other.dim, type := other.type, data := other.data, headers := other.headers }

/-! ## The session state and its environment -/

/-- Open-mode constant `READ_ONLY` (value as declared in `table.h`). -/
def READ_ONLY : Nat := 0

/-- Open-mode constant `READ_WRITE` (value as declared in `table.h`). -/
def READ_WRITE : Nat := 1

/-- Open-mode constant `TRUNCATE` (value as declared in `table.h`). -/
def TRUNCATE : Nat := 2

/-- A C `FILE*`; `none` is `nullptr`. -/
abbrev FilePtr := Option Nat

/-- One call that touches a file, with its arguments and its result.  `fopen`
to `fflush` are the C library calls.  `expand` is `File::expand(file, size)`
of `em/os/file.h`, which pre-allocates the file to `size` bytes; `readHeader`
and `writeHeader` are the calls of the format's virtual methods. -/
inductive FileOp where
  | fopen (path : String) (openMode : String) (result : FilePtr)
  | fclose (file : Nat)
  | fseek (file : Nat) (pos : Nat) (result : Int)
  | fread (file : Nat) (size : Nat) (result : Nat)
  | fwrite (file : Nat) (data : List Nat) (size : Nat) (result : Nat)
  | fflush (file : FilePtr)
  | expand (file : FilePtr) (size : Nat)
  | readHeader (file : FilePtr)
  | writeHeader (file : FilePtr)
deriving DecidableEq, Repr

/-- What is thrown: `THROW_ERROR`, `THROW_SYS_ERROR`, or the undefined
behaviour of dereferencing a null pointer (which the model reports instead of
continuing). -/
inductive Error where
  | error (msg : String)
  | sysError (msg : String)
  | nullDeref
deriving DecidableEq, Repr

/-- Modelled from the spec: the fields of `ImageIOImpl`, declared in
`em/image/image_priv.h`, which is not part of the sources; these are the
fields `image.cpp` uses (the spec's session state, where the header size is
reported by the format through `getHeaderSize`). -/
structure ImageIOImpl where
  path : String
  fileMode : Nat
  file : FilePtr
  dim : ArrayDim
  type : ConstTypePtr
  pad : Nat
  image : Image
deriving DecidableEq, Repr

/-- Modelled from the spec: `ImplRegistry` of `em/base/registry.h`, which is
not part of the sources: the builder registered under each key.  A builder is
identified by a number. -/
abbrev ImplRegistry := List (String × Nat)

/-- The C library as the session sees it.  Every answer may depend on the
operations performed so far. -/
structure Env where
  fopen : List FileOp → String → String → FilePtr
  fseek : List FileOp → Nat → Nat → Int
  fread : List FileOp → Nat → Nat → Nat × List Nat
  fwrite : List FileOp → Nat → List Nat → Nat → Nat

/-- The virtual methods a concrete format supplies to `ImageIO`
(`createHandler` is the factory `open` calls when no implementation is bound
yet).  `readHeader` and `writeHeader` return the exception they throw, if any,
and the `ImageIOImpl` they leave behind. -/
structure Format where
  createHandler : ImageIOImpl
  readHeader : List FileOp → ImageIOImpl → Option Error × ImageIOImpl
  writeHeader : List FileOp → ImageIOImpl → Option Error × ImageIOImpl
  getHeaderSize : ImageIOImpl → Nat

/-- The mutable state: the member `ImageIO::impl` of one session, the registry
behind `getRegistry()`, and the log of file operations performed so far. -/
structure State where
  impl : Option ImageIOImpl
  registry : ImplRegistry
  log : List FileOp
deriving DecidableEq, Repr

/-- Result of a method returning `void`: the exception thrown, if any, and the
state it leaves. -/
structure Outcome where
  err : Option Error
  st : State
deriving DecidableEq, Repr

/-- Result of `ImageIO::read`: as `Outcome`, with the caller's image. -/
structure ReadOutcome where
  err : Option Error
  st : State
  image : Image
deriving DecidableEq, Repr

/-- Modelled from the spec: the `ASSERT_ERROR(cond, msg)` of
`em/base/error.h`, which is not part of the sources: it throws an `Error` with
`msg` when `cond` holds (as in `ImageIO::getDimensions`, which raises "File has
not been opened" when `impl == nullptr`). -/
def ASSERT_ERROR (cond : Bool) (msg : String) : Option Error :=
  if cond then some (Error.error msg) else none

/-- The bytes of a buffer after `bytes` have been stored at its start. -/
def storeBytes (buffer bytes : List Nat) : List Nat :=
  bytes ++ buffer.drop bytes.length

/-! ## ImageIOImpl -/

/-- Method `ImageIOImpl::getOpenMode`: "r" unless the `switch` selects
another mode string. -/
def ImageIOImpl.getOpenMode (mode : Nat) : String :=
  if mode = READ_WRITE then "r+"
  else if mode = TRUNCATE then "w"
  else "r"

/-- Method `ImageIOImpl::openFile`: `fopen` with the mode string of
`fileMode`; a null result is a system error. -/
def ImageIOImpl.openFile (env : Env) (log : List FileOp) (impl : ImageIOImpl) :
    Option Error × ImageIOImpl × List FileOp :=
  let openMode := ImageIOImpl.getOpenMode impl.fileMode
  let file := env.fopen log impl.path openMode
  let impl1 := { impl with file := file }
  let log1 := log ++ [FileOp.fopen impl.path openMode file]
  match file with
  | none => (some (Error.sysError ("Error opening file '" ++ impl.path)), impl1, log1)
  | some _ => (none, impl1, log1)

/-! ## ImageIO -/


/-- Base implementation `ImageIO::createHandler`: `new ImageIOImpl`.  The
initial values of the fields are not visible in the sources; null pointers,
zeros and an empty scratch image are used. -/
def ImageIO.createHandler : ImageIOImpl :=
  { path := "", fileMode := READ_ONLY, file := none, dim := ⟨0, 0, 0, 0⟩,
    type := none, pad := 0, image := Image.empty }

/-- Method `ImageIO::getPadSize`. -/
def ImageIO.getPadSize (impl : ImageIOImpl) : Nat := impl.pad

/-- Virtual method `readHeader` called on the session. -/
def ImageIO.readHeader (fmt : Format) (st : State) : Outcome :=
  match st.impl with
  | none => ⟨some Error.nullDeref, st⟩
  | some impl =>
    let r := fmt.readHeader st.log impl
    ⟨r.1, { st with impl := some r.2, log := st.log ++ [FileOp.readHeader impl.file] }⟩

/-- Virtual method `writeHeader` called on the session. -/
def ImageIO.writeHeader (fmt : Format) (st : State) : Outcome :=
  match st.impl with
  | none => ⟨some Error.nullDeref, st⟩
  | some impl =>
    let r := fmt.writeHeader st.log impl
    ⟨r.1, { st with impl := some r.2, log := st.log ++ [FileOp.writeHeader impl.file] }⟩

/-- Method `ImageIO::open`. -/
def ImageIO.open (env : Env) (fmt : Format) (st : State) (path : String) (mode : Nat) : Outcome :=
  let impl0 : ImageIOImpl := match st.impl with
    | none => fmt.createHandler
    | some impl => impl
  let impl1 := { impl0 with path := path, fileMode := mode }
  let r := ImageIOImpl.openFile env st.log impl1
  let st1 : State := { st with impl := some r.2.1, log := r.2.2 }
  match r.1 with
  | some e => ⟨some e, st1⟩
  | none => if mode ≠ TRUNCATE then ImageIO.readHeader fmt st1 else ⟨none, st1⟩

/-- Method `ImageIO::close`. -/
def ImageIO.close (st : State) : Outcome :=
  match st.impl with
  | none => ⟨none, st⟩
  | some impl =>
    match impl.file with
    | none => ⟨none, st⟩
    | some f =>
      ⟨none, { st with impl := some { impl with file := none },
                       log := st.log ++ [FileOp.fclose f] }⟩

/-- Destructor `ImageIO::~ImageIO`: `close()`, then `delete impl`. -/
def ImageIO.destroy (st : State) : Outcome :=
  let o := ImageIO.close st
  ⟨o.err, { o.st with impl := none }⟩

/-- Method `ImageIO::getDimensions`. -/
def ImageIO.getDimensions (st : State) : Except Error ArrayDim :=
  match ASSERT_ERROR (st.impl == none) "File has not been opened. " with
  | some e => Except.error e
  | none =>
    match st.impl with
    | none => Except.error Error.nullDeref
    | some impl => Except.ok impl.dim

/-- Modelled from the spec: `ImplRegistry::hasImpl` of `em/base/registry.h`,
which is not part of the sources: a case-sensitive exact-match lookup of the
key. -/
def ImplRegistry.hasImpl (reg : ImplRegistry) (key : String) : Bool :=
  reg.any (fun e => e.1 == key)

/-- Static method `ImageIO::has`, on the registry of the state. -/
def ImageIO.has (st : State) (extension : String) : Bool :=
  ImplRegistry.hasImpl st.registry extension

/-- Method `ImageIO::createFile`. -/
def ImageIO.createFile (fmt : Format) (st : State) (adim : ArrayDim)
    (type : ConstTypePtr) : Outcome :=
  match st.impl with
  | none => ⟨some Error.nullDeref, st⟩
  | some impl =>
    if impl.fileMode ≠ TRUNCATE then
      ⟨some (Error.error "ImageIO::createFile can only be used with TRUNCATE mode."), st⟩
    else
      let impl1 := { impl with dim := adim, type := type }
      let o := ImageIO.writeHeader fmt { st with impl := some impl1 }
      match o.err with
      | some e => ⟨some e, o.st⟩
      | none =>
        match type, o.st.impl with
        | some t, some impl2 =>
          let itemSize := szMul adim.getItemSize t.getSize
          let fileSize := szAdd (fmt.getHeaderSize impl2)
            (szMul (szAdd itemSize ( ImageIO.getPadSize impl2)) adim.n)
          ⟨none, { o.st with
                   log := o.st.log ++ [FileOp.expand impl2.file fileSize,
                                       FileOp.fflush impl2.file] }⟩
        | _, _ => ⟨some Error.nullDeref, o.st⟩

/-- Method `ImageIO::read(const size_t index, Image &image)`. -/
def ImageIO.read (env : Env) (fmt : Format) (st : State) (index : Nat)
    (image : Image) : ReadOutcome :=
  match st.impl with
  | none => ⟨some Error.nullDeref, st, image⟩
  | some impl =>
    let adim : ArrayDim := { impl.dim with n := 1 }
    let fileType := impl.type
    let image1 : Image :=
      if image.getType = none then image.resize adim fileType else image.resize adim none
    let imageType : ConstTypePtr :=
      if image.getType = none then fileType else image.getType
    let sameType : Bool := decide (imageType = fileType)
    match fileType with
    | none => ⟨some Error.nullDeref, st, image1⟩
    | some ft =>
      let impl1 : ImageIOImpl :=
        { impl with image := if sameType then impl.image else impl.image.resize adim fileType }
      let data : List Nat :=
        if sameType then image1.getDataPointer else impl1.image.getDataPointer
      let itemSize := szMul adim.getItemSize ft.getSize
      let itemPos := szAdd (fmt.getHeaderSize impl1)
        (szMul (szAdd itemSize ( ImageIO.getPadSize impl1)) (szSub index 1))
      match impl1.file with
      | none => ⟨some Error.nullDeref, { st with impl := some impl1 }, image1⟩
      | some f =>
        let rc := env.fseek st.log f itemPos
        let log1 := st.log ++ [FileOp.fseek f itemPos rc]
        if rc ≠ 0 then
          ⟨some (Error.sysError "Could not 'fseek' in file. "),
            { st with impl := some impl1, log := log1 }, image1⟩
        else
          let r := env.fread log1 f itemSize
          let log2 := log1 ++ [FileOp.fread f itemSize r.1]
          let data1 := storeBytes data (r.2.take itemSize)
          let image2 : Image := if sameType then { image1 with data := data1 } else image1
          let impl2 : ImageIOImpl :=
            { impl1 with
              image := if sameType then impl1.image else { impl1.image with data := data1 } }
          if r.1 ≠ 1 then
            ⟨some (Error.sysError "Could not 'fread' data from file. "),
              { st with impl := some impl2, log := log2 }, image2⟩
          else
            ⟨none, { st with impl := some impl2, log := log2 }, image2⟩

/-- Method `ImageIO::write(const size_t index, const Image &image)`. -/
def ImageIO.write (env : Env) (fmt : Format) (st : State) (index : Nat)
    (image : Image) : Outcome :=
  match st.impl with
  | none => ⟨some Error.nullDeref, st⟩
  | some impl =>
    let type := impl.type
    match ASSERT_ERROR (decide (image.getType ≠ type))
        "Type cast not implemented. Now image should have the same type." with
    | some e => ⟨some e, st⟩
    | none =>
      let impl1 : ImageIOImpl := { impl with image := impl.image.assign image }
      let data := impl1.image.getDataPointer
      match type with
      | none => ⟨some Error.nullDeref, { st with impl := some impl1 }⟩
      | some t =>
        let itemSize := szMul impl1.dim.getItemSize t.getSize
        let itemPos := szAdd (fmt.getHeaderSize impl1)
          (szMul (szAdd itemSize ( ImageIO.getPadSize impl1)) (szSub index 1))
        match impl1.file with
        | none => ⟨some Error.nullDeref, { st with impl := some impl1 }⟩
        | some f =>
          let rc := env.fseek st.log f itemPos
          let log1 := st.log ++ [FileOp.fseek f itemPos rc]
          if rc ≠ 0 then
            ⟨some (Error.sysError "Could not 'fseek' in file. "),
              { st with impl := some impl1, log := log1 }⟩
          else
            let written := env.fwrite log1 f data itemSize
            ⟨none, { st with impl := some impl1,
                             log := log1 ++ [FileOp.fwrite f data itemSize written] }⟩

/-! ## A concrete format and environment, used to run the definitions -/

/-- A format with a 512-byte header and no padding whose header declares one
10x10 single-precision image. -/
def demoFormat : Format where
  createHandler := ImageIO.createHandler
  readHeader := fun _ impl =>
    (none, { impl with dim := ⟨10, 10, 1, 1⟩, type := some TypeFloat, pad := 0 })
  writeHeader := fun _ impl => (none, impl)
  getHeaderSize := fun _ => 512

/-- An environment in which every call succeeds: `fopen` returns the handle 3
and `fread` delivers `size` bytes of value 7. -/
def demoEnv : Env where
  fopen := fun _ _ _ => some 3
  fseek := fun _ _ _ => 0
  fread := fun _ _ size => (1, List.replicate size 7)
  fwrite := fun _ _ _ _ => 1

/-- The state of a process in which nothing has happened yet. -/
def initState : State := ⟨none, [], []⟩

/-! ## Statements of the specification, in its own words -/

/-- The byte offset of the 1-based index `i` as the specification writes it,
`H + (E*S + P)*(i-1)`, for header size `H`, pad size `P`, element size `S` and
elements-per-item `E`, over the natural numbers. -/
def specItemOffset (H P S E i : Nat) : Nat := H + (E * S + P) * (i - 1)

/-- The file extent as the specification writes it,
`headerSize + (itemSize + padSize) * dim.count` with
`itemSize = dim.elementsPerItem * type.size`, over the natural numbers. -/
def specFileExtent (H P S E n : Nat) : Nat := H + (E * S + P) * n

/-! ## Concrete session states -/

/-- The `ImageIOImpl` of a session opened read-only on "a.mrc" with
`demoFormat` and `demoEnv`. -/
def demoImpl : ImageIOImpl :=
  { path := "a.mrc", fileMode := READ_ONLY, file := some 3, dim := ⟨10, 10, 1, 1⟩,
    type := some TypeFloat, pad := 0, image := Image.empty }

/-- The state after `open("a.mrc", READ_ONLY)` with `demoFormat` and `demoEnv`. -/
def demoOpened : State :=
  ⟨some demoImpl, [], [FileOp.fopen "a.mrc" "r" (some 3), FileOp.readHeader (some 3)]⟩

/-- The `ImageIOImpl` of a session opened with `TRUNCATE` on "a.mrc". -/
def demoTruncImpl : ImageIOImpl :=
  { ImageIO.createHandler with path := "a.mrc", fileMode := TRUNCATE, file := some 3 }

/-- The state after `open("a.mrc", TRUNCATE)` with `demoFormat` and `demoEnv`. -/
def demoTruncated : State :=
  ⟨some demoTruncImpl, [], [FileOp.fopen "a.mrc" "w" (some 3)]⟩

/-- A 10x10 single-precision image whose bytes are all 1. -/
def demoFloatImage : Image :=
  ⟨⟨10, 10, 1, 1⟩, some TypeFloat, List.replicate 400 1, [[]]⟩

/-- A 10x10 image of 32-bit integers whose bytes are all 1. -/
def demoInt32Image : Image :=
  ⟨⟨10, 10, 1, 1⟩, some TypeInt32, List.replicate 400 1, [[]]⟩

/-- The `ImageIOImpl` of a session opened with `READ_WRITE` on "a.mrc". -/
def demoRWImpl : ImageIOImpl := { demoImpl with fileMode := READ_WRITE }

/-- The state after `open("a.mrc", READ_WRITE)` with `demoFormat` and `demoEnv`. -/
def demoRWOpened : State :=
  ⟨some demoRWImpl, [], [FileOp.fopen "a.mrc" "r+" (some 3), FileOp.readHeader (some 3)]⟩

/-- An environment like `demoEnv` in which `fwrite` stores nothing and returns
0 (for instance because the disk is full). -/
def shortWriteEnv : Env := { demoEnv with fwrite := fun _ _ _ _ => 0 }

/-- An environment like `demoEnv` in which `fread` delivers nothing and
returns 0 (for instance because the file ends before the item). -/
def shortReadEnv : Env := { demoEnv with fread := fun _ _ _ => (0, []) }

/-- The bytes of the two single-precision values 1.5 and 2.3 (little endian). -/
def floatPairRecord : List Nat := [0, 0, 192, 63, 51, 51, 19, 64]

/-- The bytes of the two 32-bit integers 1 and 2 (little endian), which is
what 1.5 and 2.3 become when cast to `Int32`. -/
def int32PairRecord : List Nat := [1, 0, 0, 0, 2, 0, 0, 0]

/-- An environment like `demoEnv` whose file holds the record
`floatPairRecord`. -/
def pairEnv : Env := { demoEnv with fread := fun _ _ _ => (1, floatPairRecord) }

/-- An opened session on a file of one item of two single-precision values,
with a 512-byte header. -/
def pairOpened : State :=
  ⟨some { demoImpl with dim := ⟨2, 1, 1, 1⟩ }, [],
    [FileOp.fopen "a.mrc" "r" (some 3), FileOp.readHeader (some 3)]⟩

/-- An image of two 32-bit integers (both zero). -/
def int32PairImage : Image :=
  ⟨⟨2, 1, 1, 1⟩, some TypeInt32, [0, 0, 0, 0, 0, 0, 0, 0], [[]]⟩

/-! ## Reading by location -/

/-- Modelled from the spec: `ImageLocation` of `em/image/image.h`, which is not
part of the sources: the path of a file and the 1-based index of one record in
it (the two members `image.cpp` uses). -/
structure ImageLocation where
  index : Nat
  path : String
deriving DecidableEq, Repr

/-- Method `ImageIO::read(const ImageLocation &location, Image &image)`:
`open(location.path)`, `read(location.index, image)`, `close()`; an exception
thrown by a step leaves the method at once.  The mode `open` takes when none is
given is declared in `image.h`, which is not part of the sources; it is
`READ_ONLY` (the default the declaration in `table.h` names). -/
def ImageIO.readLocation (env : Env) (fmt : Format) (st : State)
    (location : ImageLocation) (image : Image) : ReadOutcome :=
  let o1 := ImageIO.open env fmt st location.path READ_ONLY
  match o1.err with
  | some e => ⟨some e, o1.st, image⟩
  | none =>
    let o2 := ImageIO.read env fmt o1.st location.index image
    match o2.err with
    | some e => ⟨some e, o2.st, o2.image⟩
    | none =>
      let o3 := ImageIO.close o2.st
      ⟨o3.err, o3.st, o2.image⟩

/-- An environment like `demoEnv` in which `fopen` returns the handle 4. -/
def reopenEnv : Env := { demoEnv with fopen := fun _ _ _ => some 4 }

/-! ## The registry of formats -/

/-- Modelled from the spec: `ImplRegistry::registerImpl(key, builder)` of
`em/base/registry.h`, which is not part of the sources: it inserts `builder`
under `key`, overwriting any prior builder for that key. -/
def ImplRegistry.registerImpl (reg : ImplRegistry) (key : String) (builder : Nat) :
    ImplRegistry :=
  (key, builder) :: reg.filter (fun e => e.1 != key)

/-- Modelled from the spec: `ImplRegistry::getImplBuilder(key)` of
`em/base/registry.h`, which is not part of the sources: a case-sensitive
exact-match lookup.  A builder is a function pointer, identified by its
address; the result is 0 (`nullptr`) when no builder is registered. -/
def ImplRegistry.getImplBuilder (reg : ImplRegistry) (key : String) : Nat :=
  match reg.find? (fun e => e.1 == key) with
  | some e => e.2
  | none => 0

/-- What `ImageIO::set` asks of its argument `reader`: `getName()` and
`getExtensions()`. -/
structure Reader where
  name : String
  extensions : List String
deriving DecidableEq, Repr

/-- A pointer to an `ImageIO` as `ImageIO::get` returns it: `nullptr`, or the
object that a call of the builder at the given address has made. -/
inductive ImageIOPtr where
  | null
  | builtBy (builder : Nat)
deriving DecidableEq, Repr

/-- Static method `ImageIO::set`: registers `builder` under every extension of
`reader`, in order, then under its name, and returns `true`. -/
def ImageIO.set (st : State) (reader : Reader) (builder : Nat) : Bool × State :=
  let reg1 := reader.extensions.foldl
    (fun reg ext => ImplRegistry.registerImpl reg ext builder) st.registry
  let reg2 := ImplRegistry.registerImpl reg1 reader.name builder
  (true, { st with registry := reg2 })

/-- Static method `ImageIO::get`: the object the registered builder makes, or
`nullptr` when the lookup gives `nullptr`. -/
def ImageIO.get (st : State) (extension : String) : ImageIOPtr :=
  let builder := ImplRegistry.getImplBuilder st.registry extension
  if builder ≠ 0 then ImageIOPtr.builtBy builder else ImageIOPtr.null

/-- A reader named "mrc" with the extensions "mrc" and "mrcs". -/
def demoReader : Reader := ⟨"mrc", ["mrc", "mrcs"]⟩

/-- A reader named "spider" with the extensions "spi" and "mrc". -/
def otherReader : Reader := ⟨"spider", ["spi", "mrc"]⟩

/-! ## Type singletons -/

/-- The C++ types `T` for which `type.h` instantiates `Type::get<T>`:
`int8_t`, `uint8_t`, `int16_t`, `uint16_t`, `int32_t`, `uint32_t`, `float`,
`double` and `std::string`. -/
inductive Kind where
  | int8 | uint8 | int16 | uint16 | int32 | uint32 | float | double | string
deriving DecidableEq, Repr

/-- The function-local statics of the template `Type::get<T>`: for every
instantiation `T` whose statics `ti` and `t` have been initialised, the address
of its `t`; `next` is the address the next static object gets (distinct
objects have distinct addresses). -/
structure TypeStatics where
  instances : List (Kind × Nat)
  next : Nat
deriving DecidableEq, Repr

/-- The statics before any call of `Type::get<T>`; address 0 is `nullptr`. -/
def TypeStatics.init : TypeStatics := ⟨[], 1⟩

/-- The address of the static `t` of the instantiation `k`, when it has been
initialised. -/
def TypeStatics.lookup (s : TypeStatics) (k : Kind) : Option Nat :=
  match s.instances.find? (fun e => e.1 == k) with
  | some e => some e.2
  | none => none

/-- Template `Type::get<T>` of `type.h`: the statics `ti` and `t` are
initialised by the first call of the instantiation and `&t` is returned. -/
def EmType.get (k : Kind) (s : TypeStatics) : Nat × TypeStatics :=
  match s.lookup k with
  | some addr => (addr, s)
  | none => (s.next, { instances := (k, s.next) :: s.instances, next := s.next + 1 })

/-- The statics after calls of `Type::get<T>` for the given instantiations, in
order. -/
def EmType.getAll (ks : List Kind) (s : TypeStatics) : TypeStatics :=
  ks.foldl (fun st k => ( EmType.get k st).2) s

/-- The pointers returned by calls of `Type::get<T>` for the given
instantiations, in order. -/
def EmType.getEach : List Kind → TypeStatics → List Nat
  | [], _ => []
  | k :: ks, s => ( EmType.get k s).1 :: EmType.getEach ks ( EmType.get k s).2

/-- The instantiations behind the constants `TypeInt8` to `TypeString`, in the
order in which `type.h` initialises them. -/
def libraryKinds : List Kind :=
  [Kind.int8, Kind.uint8, Kind.int16, Kind.uint16, Kind.int32, Kind.uint32,
   Kind.float, Kind.double, Kind.string]

/-- The values of the constants `TypeInt8` to `TypeString` of `type.h`, as
pointers. -/
def libraryTypePointers : List Nat := EmType.getEach libraryKinds TypeStatics.init

/-- The singleton `TypeString = Type::get<std::string>()` of `type.h`.  The
size is `sizeof(std::string)`, 32 bytes with the C++ library of an LP64
Linux. -/
def TypeString : EmType := ⟨"string", 32⟩

/-! ## Inferring a type from text -/

/-- The characters after an optional leading sign. -/
def stripSign : List Char → List Char
  | '+' :: rest => rest
  | '-' :: rest => rest
  | cs => cs

/-- Modelled from the spec: a token that parses as an integer: an optional
sign and one or more decimal digits, nothing else. -/
def isIntegerToken (cs : List Char) : Bool :=
  !(stripSign cs).isEmpty && (stripSign cs).all Char.isDigit

/-- Modelled from the spec: a token that parses as a real number: an optional
sign, then decimal digits with at most one decimal point and at least one
digit, nothing else. -/
def isRealToken (cs : List Char) : Bool :=
  let body := stripSign cs
  let intPart := body.takeWhile Char.isDigit
  match body.dropWhile Char.isDigit with
  | [] => !intPart.isEmpty
  | '.' :: frac => frac.all Char.isDigit && (!intPart.isEmpty || !frac.isEmpty)
  | _ => false

/-- Modelled from the spec: `Type::inferFromString(str)`, which is not part of
the sources (its calls are in `test_type.cpp`): the most specific kind out of
`Int32`, `Float`, `String`, in that preference order, that the whole input
parses as; `String` when it parses as none of the stricter kinds. -/
def EmType.inferFromString (str : String) : EmType :=
  if isIntegerToken str.toList then TypeInt32
  else if isRealToken str.toList then TypeFloat
  else TypeString

/-- Modelled from the spec: `Type::inferFromString(ptr, n)`, the same rule
applied to the window of `n` characters that starts at `ptr`; the pointer is a
string and an offset into it. -/
def EmType.inferFromStringN (str : String) (offset n : Nat) : EmType :=
  EmType.inferFromString (String.mk ((str.toList.drop offset).take n))

/-- The invariant of the statics of `Type::get<T>`: every address handed out is
below `next`, and no address belongs to two instantiations. -/
def TypeStatics.Inv (s : TypeStatics) : Prop :=
  (∀ k a, s.lookup k = some a → a < s.next)
  ∧ (∀ k1 k2 a, s.lookup k1 = some a → s.lookup k2 = some a → k1 = k2)

/-! ## Casting between kinds -/

/-- The name `Type::getName` gives for an instantiation ("int32", "float",
"double" and "int8" are the names `test_type.cpp` checks). -/
def Kind.name : Kind → String
  | Kind.int8 => "int8"
  | Kind.uint8 => "uint8"
  | Kind.int16 => "int16"
  | Kind.uint16 => "uint16"
  | Kind.int32 => "int32"
  | Kind.uint32 => "uint32"
  | Kind.float => "float"
  | Kind.double => "double"
  | Kind.string => "string"

/-- The size `Type::getSize` gives for an instantiation: `sizeof(T)`. -/
def Kind.size : Kind → Nat
  | Kind.int8 => 1
  | Kind.uint8 => 1
  | Kind.int16 => 2
  | Kind.uint16 => 2
  | Kind.int32 => 4
  | Kind.uint32 => 4
  | Kind.float => 4
  | Kind.double => 8
  | Kind.string => 32

/-- The `Type` object of an instantiation, by content. -/
def Kind.toType (k : Kind) : EmType := ⟨k.name, k.size⟩

/-- The instantiation a `Type` object belongs to, when it is one of the nine
of `type.h`. -/
def EmType.kind (t : EmType) : Option Kind :=
  libraryKinds.find? (fun k => decide (k.toType = t))

/-- Whether the kind is a signed integer. -/
def Kind.isSigned : Kind → Bool
  | Kind.int8 => true
  | Kind.int16 => true
  | Kind.int32 => true
  | _ => false

/-- Whether the kind is an integer, signed or unsigned. -/
def Kind.isInteger : Kind → Bool
  | Kind.float => false
  | Kind.double => false
  | Kind.string => false
  | _ => true

/-- Whether the kind is a floating-point number. -/
def Kind.isFloating : Kind → Bool
  | Kind.float => true
  | Kind.double => true
  | _ => false

/-- The width in bits of the exponent field of a floating-point kind. -/
def Kind.expBits : Kind → Nat
  | Kind.double => 11
  | _ => 8

/-- The width in bits of the fraction field of a floating-point kind. -/
def Kind.manBits : Kind → Nat
  | Kind.double => 52
  | _ => 23

/-- The number a sequence of bytes holds, least significant byte first. -/
def fromLE : List Nat → Nat
  | [] => 0
  | b :: rest => b % 256 + 256 * fromLE rest

/-- The `size` bytes that hold a number, least significant byte first. -/
def toLE : Nat → Nat → List Nat
  | 0, _ => []
  | size + 1, n => n % 256 :: toLE size (n / 256)

/-- The bytes of an integer in an integer kind of `size` bytes: the value
modulo `2 ^ (8 * size)` (two's complement). -/
def encodeInt (size : Nat) (v : Int) : List Nat :=
  toLE size (v % (2 : Int) ^ (8 * size)).toNat

/-- The integer that `size` bytes of an integer kind hold. -/
def decodeInt (signed : Bool) (size : Nat) (bytes : List Nat) : Int :=
  let n := fromLE (bytes.take size)
  if signed && decide (2 ^ (8 * size - 1) ≤ n) then (n : Int) - (2 : Int) ^ (8 * size)
  else (n : Int)

/-- Whether an integer is a value of the integer kind of `size` bytes. -/
def intInRange (signed : Bool) (size : Nat) (v : Int) : Bool :=
  if signed then decide (-(2 : Int) ^ (8 * size - 1) ≤ v ∧ v < (2 : Int) ^ (8 * size - 1))
  else decide (0 ≤ v ∧ v < (2 : Int) ^ (8 * size))

/-- The sign (`true` is negative) and the magnitude, with the fraction cut
off, of the IEEE 754 binary number held by a bit pattern with `expBits`
exponent bits and `manBits` fraction bits; `none` for an infinity or a NaN. -/
def truncFloatBits (expBits manBits bits : Nat) : Option (Bool × Nat) :=
  let e := bits / 2 ^ manBits % 2 ^ expBits
  let m := bits % 2 ^ manBits
  let negative := decide (bits / 2 ^ (manBits + expBits) % 2 = 1)
  let shift := 2 ^ (expBits - 1) - 1 + manBits
  let sig := if e = 0 then m else 2 ^ manBits + m
  let ex := if e = 0 then 1 else e
  if e = 2 ^ expBits - 1 then none
  else some (negative, if shift ≤ ex then sig * 2 ^ (ex - shift) else sig / 2 ^ (shift - ex))

/-- What a cast gives: the bytes written, or `UnsupportedConversion` is
thrown, or the behaviour is undefined in C++, or the conversion is outside
this model. -/
inductive CastResult (α : Type) where
  | ok (value : α)
  | unsupported
  | undefined
  | notModelled
deriving DecidableEq, Repr

/-- Modelled from the spec: the cast of one element, the "conversion semantics
of a native narrowing/widening numeric cast".  Into an integer kind: from an
integer kind the value is taken modulo `2 ^ bits`; from a floating kind the
value is truncated toward zero, and the behaviour is undefined when the result
is not a value of the integer kind (or the source is an infinity or a NaN).
Between a string and a numeric kind no conversion is defined.  A cast into a
floating kind from another kind rounds to the nearest value of that kind; the
rounding is not modelled. -/
def castElement (dst src : Kind) (bytes : List Nat) : CastResult (List Nat) :=
  if dst = src then CastResult.ok bytes
  else if dst = Kind.string ∨ src = Kind.string then CastResult.unsupported
  else if dst.isFloating then CastResult.notModelled
  else if src.isInteger then
    CastResult.ok (encodeInt dst.size (decodeInt src.isSigned src.size bytes))
  else
    match truncFloatBits src.expBits src.manBits (fromLE bytes) with
    | none => CastResult.undefined
    | some (negative, magnitude) =>
      let v : Int := if negative then -(magnitude : Int) else (magnitude : Int)
      if intInRange dst.isSigned dst.size v then CastResult.ok (encodeInt dst.size v)
      else CastResult.undefined

/-- The cast of `count` consecutive elements. -/
def castElements (dst src : Kind) : Nat → List Nat → CastResult (List Nat)
  | 0, _ => CastResult.ok []
  | count + 1, input =>
    match castElement dst src (input.take src.size) with
    | CastResult.ok out =>
      match castElements dst src count (input.drop src.size) with
      | CastResult.ok rest => CastResult.ok (out ++ rest)
      | other => other
    | other => other

/-- Modelled from the spec: `Type::castFrom(inputMem, outputMem, count,
inputType)`, declared in `type.h`; its body is not part of the sources.  It
casts `count` elements of `inputType` held by `inputMem` into the type it is
called on and gives the bytes written to `outputMem`.  A type that is not one
of the nine of `type.h` can only be copied to itself. -/
def EmType.castFrom (self : EmType) (inputMem : List Nat) (count : Nat)
    (inputType : ConstTypePtr) : CastResult (List Nat) :=
  match inputType with
  | none => CastResult.undefined
  | some it =>
    match self.kind, it.kind with
    | some dst, some src => castElements dst src count inputMem
    | _, _ =>
      if self = it then CastResult.ok (inputMem.take (count * self.size))
      else CastResult.unsupported

/-- Modelled from the spec: the empty constructor of `Object` (`object.h` is
not part of the sources): the Null type and no value. -/
def Object.null : Object := ⟨none, []⟩

/-- Modelled from the spec: assignment of a value to an `Object`, the value
given by its type and its bytes.  An object of the Null type adopts the type
of the value; an object of another type keeps its type and stores the value
converted into it by `Type::castFrom`.  When the conversion throws, the object
is not changed. -/
def Object.assign (o : Object) (srcType : EmType) (src : List Nat) : CastResult Object :=
  match o.type with
  | none => CastResult.ok ⟨some srcType, src⟩
  | some t =>
    match t.castFrom src 1 (some srcType) with
    | CastResult.ok bytes => CastResult.ok ⟨some t, bytes⟩
    | CastResult.unsupported => CastResult.unsupported
    | CastResult.undefined => CastResult.undefined
    | CastResult.notModelled => CastResult.notModelled

/-- The bytes of the single-precision value 2.2 (little endian). -/
def float2p2 : List Nat := [205, 204, 12, 64]

/-! ## The value of a floating-point number, in the words of the spec -/

/-- The rational number that an IEEE 754 bit pattern with `expBits` exponent
bits and `manBits` fraction bits denotes (for a pattern that is not an
infinity or a NaN). -/
def floatValue (expBits manBits bits : Nat) : ℚ :=
  let e := bits / 2 ^ manBits % 2 ^ expBits
  let m := bits % 2 ^ manBits
  let shift := 2 ^ (expBits - 1) - 1 + manBits
  let sig := if e = 0 then m else 2 ^ manBits + m
  let ex := if e = 0 then 1 else e
  (if bits / 2 ^ (manBits + expBits) % 2 = 1 then -1 else 1)
    * ((sig : ℚ) * (2 : ℚ) ^ ((ex : ℤ) - (shift : ℤ)))

/-- Whether a single-precision bit pattern is a finite number. -/
def isFiniteFloat32 (bits : Nat) : Bool := decide (bits / 2 ^ 23 % 2 ^ 8 ≠ 2 ^ 8 - 1)

/-- A rational number truncated toward zero. -/
def truncTowardZero (q : ℚ) : ℤ := if 0 ≤ q then ⌊q⌋ else -⌊-q⌋

/-- A single-precision bit pattern whose cast to `Int32` is defined in C++: a
32-bit pattern of a finite number whose value, truncated toward zero, is a
value of `Int32`. -/
def castableToInt32 (bits : Nat) : Prop :=
  bits < 2 ^ 32 ∧ isFiniteFloat32 bits = true
  ∧ -(2 : ℤ) ^ 31 ≤ truncTowardZero (floatValue 8 23 bits)
  ∧ truncTowardZero (floatValue 8 23 bits) < (2 : ℤ) ^ 31

/-- The bit patterns of the single-precision values 1.5 and 2.3. -/
def floatPairBits : List Nat := [1069547520, 1075000115]

/-! ## Image headers -/

/-- Constructor `Image::Image(const ArrayDim &adim, ConstTypePtr type)`: the
array of the given dimensions and type (the constructor asserts that the type
is not null) and, from `ImageImpl::ImageImpl`, one header dictionary. -/
def Image.create (adim : ArrayDim) (type : EmType) : Image :=
  { dim := adim, type := some type,
    data := List.replicate (szMul (szMul adim.getItemSize adim.n) type.getSize) 0,
    headers := [[]] }

/-- Copy constructor `Image::Image(const Image &other)`: the array part is
copied by `Array(other)`, `new ImageImpl()` makes one header dictionary, and
`*this = other` then assigns. -/
def Image.copy (other : Image) : Image :=
  Image.assign
    { dim := other.dim, type := other.type, data := other.data, headers := [[]] } other

/-- Method `Image::getHeader(index)`: `implPtr->headers[index]`; `none` when
the index is past the end of the vector (undefined behaviour in C++). -/
def Image.getHeader (img : Image) (index : Nat) : Option ObjectDict :=
  img.headers.get? index

/-- The images a program can reach: made by one of the three constructors, by
copy assignment, by `resize`, by writing into the dictionary that `getHeader`
gives a reference to, or by writing data through `getDataPointer`. -/
inductive Image.Reachable : Image → Prop where
  | empty : Image.Reachable Image.empty
  | create (adim : ArrayDim) (type : EmType) : Image.Reachable (Image.create adim type)
  | copy (other : Image) : Image.Reachable other → Image.Reachable (Image.copy other)
  | assign (self other : Image) : Image.Reachable self → Image.Reachable other →
      Image.Reachable (Image.assign self other)
  | resize (img : Image) (adim : ArrayDim) (type : ConstTypePtr) : Image.Reachable img →
      Image.Reachable (Image.resize img adim type)
  | setHeader (img : Image) (index : Nat) (dict : ObjectDict) : Image.Reachable img →
      Image.Reachable { img with headers := img.headers.set index dict }
  | setData (img : Image) (data : List Nat) : Image.Reachable img →
      Image.Reachable { img with data := data }

/-! ## Columns and tables -/

/-- The sentinel `ColumnMap::NO_ID` of `metadata.h`: the largest `size_t`. -/
def NO_ID : Nat := SIZE_MOD - 1

/-- The sentinel `ColumnMap::NO_INDEX` of `metadata.h`: the largest `size_t`. -/
def NO_INDEX : Nat := SIZE_MOD - 1

/-- The class `ColumnMap::Column` of `metadata.h`: its four members.  A column
made by the constructor without ID has the id `NO_ID`. -/
structure Column where
  id : Nat
  name : String
  type : EmType
  descr : String
deriving DecidableEq, Repr

/-- Modelled from the spec: the state of a `ColumnMap`, whose implementation
class is not part of the sources: the ordered sequence of its columns. -/
abbrev ColumnMap := List Column

/-- The failures of the column and table operations, by kind. -/
inductive TableError where
  | duplicateColumn
  | columnNotFound
  | indexOutOfRange
  | typeMismatch
  | usageError
deriving DecidableEq, Repr

/-- The position of the first column that satisfies a test. -/
def ColumnMap.indexOf (p : Column → Bool) : ColumnMap → Option Nat
  | [] => none
  | c :: rest =>
    if p c then some 0
    else
      match ColumnMap.indexOf p rest with
      | some i => some (i + 1)
      | none => none

/-- Modelled from the spec: `ColumnMap::getIndex(size_t columnId)`: the
position of the column with this id, `NO_INDEX` when there is none. -/
def ColumnMap.getIndexById (m : ColumnMap) (columnId : Nat) : Nat :=
  match ColumnMap.indexOf (fun c => c.id == columnId) m with
  | some i => i
  | none => NO_INDEX

/-- Modelled from the spec: `ColumnMap::getIndex(const std::string &)`: the
position of the column with this name, `NO_INDEX` when there is none. -/
def ColumnMap.getIndexByName (m : ColumnMap) (columnName : String) : Nat :=
  match ColumnMap.indexOf (fun c => c.name == columnName) m with
  | some i => i
  | none => NO_INDEX

/-- The largest id of a column of the map (0 for an empty map). -/
def ColumnMap.maxId : ColumnMap → Nat
  | [] => 0
  | c :: rest => max c.id (ColumnMap.maxId rest)

/-- Whether a column of the map has the id or the name of the given column. -/
def ColumnMap.hasDuplicate (m : ColumnMap) (column : Column) : Bool :=
  m.any (fun c => c.id == column.id || c.name == column.name)

/-- The column as the map stores it: a column without id gets the next unused
id, one more than the largest id in the map. -/
def ColumnMap.withId (m : ColumnMap) (column : Column) : Column :=
  { column with id := if column.id = NO_ID then ColumnMap.maxId m + 1 else column.id }

/-- Modelled from the spec: `ColumnMap::addColumn(column)`, declared in
`metadata.h`; its body is not part of the sources.  It fails with
`DuplicateColumn` if the id or the name already exists; otherwise it appends
the column, assigning the next unused id to a column that carries `NO_ID`, and
returns the index of the column.  A failure leaves the map as it was. -/
def ColumnMap.addColumn (m : ColumnMap) (column : Column) :
    Except TableError (Nat × ColumnMap) :=
  if ColumnMap.hasDuplicate m column then Except.error TableError.duplicateColumn
  else Except.ok (m.length, m ++ [ColumnMap.withId m column])

/-- A sequence of `addColumn` calls on a map: the map at the end and the ids
that were assigned to columns without id, in order.  A failing call leaves the
map as it was. -/
def ColumnMap.addColumns (m : ColumnMap) : List Column → ColumnMap × List Nat
  | [] => (m, [])
  | column :: rest =>
    match ColumnMap.addColumn m column with
    | Except.error _ => ColumnMap.addColumns m rest
    | Except.ok (_, m2) =>
      if column.id = NO_ID then
        ((ColumnMap.addColumns m2 rest).1,
          (ColumnMap.maxId m + 1) :: (ColumnMap.addColumns m2 rest).2)
      else ColumnMap.addColumns m2 rest

/-- A column "x" of type `Int32` with the id 1. -/
def columnX : Column := ⟨1, "x", TypeInt32, ""⟩

/-- A column "y" of type `Float` made without id. -/
def columnY : Column := ⟨NO_ID, "y", TypeFloat, ""⟩

/-- A column "z" of type `Float` made without id. -/
def columnZ : Column := ⟨NO_ID, "z", TypeFloat, ""⟩

/-- The list with one more element at a position. -/
def insertAt {α : Type} (l : List α) (pos : Nat) (x : α) : List α :=
  l.take pos ++ x :: l.drop pos

/-- The list without the element at a position. -/
def removeAt {α : Type} (l : List α) (pos : Nat) : List α :=
  l.take pos ++ l.drop (pos + 1)

/-- The list with the element at position `src` moved to position `dst`. -/
def moveAt {α : Type} (l : List α) (src dst : Nat) : List α :=
  match l.get? src with
  | none => l
  | some x => insertAt (removeAt l src) dst x

/-- The class `Table::Row`: the values of one row, one `Object` per column, in
the order of the columns. -/
abbrev Row := List Object

/-- Modelled from the spec: the state of a `Table`, whose implementation class
is not part of the sources: its columns and its rows. -/
structure Table where
  columns : ColumnMap
  rows : List Row
deriving DecidableEq, Repr

/-- The schema invariant: every row has as many values as the table has
columns, and the type of each value is the type of the column at its
position. -/
def Table.conforms (t : Table) : Prop :=
  ∀ row ∈ t.rows, row.map (fun o => o.type) = t.columns.map (fun c => some c.type)

/-- Modelled from the spec: `Table::addColumn(col)` of `table.h`, valid only
while the table has no rows. -/
def Table.addColumn (t : Table) (col : Column) : Except TableError (Nat × Table) :=
  if t.rows.isEmpty then
    match ColumnMap.addColumn t.columns col with
    | Except.error e => Except.error e
    | Except.ok (index, columns) => Except.ok (index, { t with columns := columns })
  else Except.error TableError.usageError

/-- Modelled from the spec: `Table::addColumn(col, defaultValue)` of
`table.h`: the default value is type-checked against the type of the column
and appended to every row. -/
def Table.addColumnDefault (t : Table) (col : Column) (defaultValue : Object) :
    Except TableError (Nat × Table) :=
  if defaultValue.type = some col.type then
    match ColumnMap.addColumn t.columns col with
    | Except.error e => Except.error e
    | Except.ok (index, columns) =>
      Except.ok (index, { columns := columns,
                          rows := t.rows.map (fun row => row ++ [defaultValue]) })
  else Except.error TableError.typeMismatch

/-- Modelled from the spec: `Table::insertColumn(col, pos, defaultValue)` of
`table.h`: as `addColumn(col, defaultValue)`, at the position `pos`. -/
def Table.insertColumnDefault (t : Table) (col : Column) (pos : Nat)
    (defaultValue : Object) : Except TableError (Nat × Table) :=
  if defaultValue.type = some col.type then
    if ColumnMap.hasDuplicate t.columns col then Except.error TableError.duplicateColumn
    else if t.columns.length < pos then Except.error TableError.indexOutOfRange
    else
      Except.ok (pos, { columns := insertAt t.columns pos (ColumnMap.withId t.columns col),
                        rows := t.rows.map (fun row => insertAt row pos defaultValue) })
  else Except.error TableError.typeMismatch

/-- Modelled from the spec: `Table::insertColumn(col, pos)` of `table.h`, valid
only while the table has no rows. -/
def Table.insertColumn (t : Table) (col : Column) (pos : Nat) :
    Except TableError (Nat × Table) :=
  if t.rows.isEmpty then
    if ColumnMap.hasDuplicate t.columns col then Except.error TableError.duplicateColumn
    else if t.columns.length < pos then Except.error TableError.indexOutOfRange
    else
      Except.ok (pos, { t with
        columns := insertAt t.columns pos (ColumnMap.withId t.columns col) })
  else Except.error TableError.usageError

/-- The table without the column at a position, in the schema and in every
row. -/
def Table.dropColumnAt (t : Table) (index : Nat) : Table :=
  { columns := removeAt t.columns index, rows := t.rows.map (fun row => removeAt row index) }

/-- The table with the column at position `index` moved to `pos`, in the
schema and in every row. -/
def Table.moveColumnAt (t : Table) (index pos : Nat) : Table :=
  { columns := moveAt t.columns index pos, rows := t.rows.map (fun row => moveAt row index pos) }

/-- Modelled from the spec: `Table::removeColumn(size_t colId)` of `table.h`:
the column and the corresponding slot of every row are dropped. -/
def Table.removeColumn (t : Table) (colId : Nat) : Except TableError Table :=
  match ColumnMap.indexOf (fun c => c.id == colId) t.columns with
  | none => Except.error TableError.columnNotFound
  | some index => Except.ok (Table.dropColumnAt t index)

/-- Modelled from the spec: `Table::removeColumn(const std::string &colName)`
of `table.h`. -/
def Table.removeColumnByName (t : Table) (colName : String) : Except TableError Table :=
  match ColumnMap.indexOf (fun c => c.name == colName) t.columns with
  | none => Except.error TableError.columnNotFound
  | some index => Except.ok (Table.dropColumnAt t index)

/-- Modelled from the spec: `Table::moveColumn(size_t colId, size_t pos)` of
`table.h`: the column and the corresponding slot of every row change
position. -/
def Table.moveColumn (t : Table) (colId pos : Nat) : Except TableError Table :=
  match ColumnMap.indexOf (fun c => c.id == colId) t.columns with
  | none => Except.error TableError.columnNotFound
  | some index =>
    if t.columns.length ≤ pos then Except.error TableError.indexOutOfRange
    else Except.ok (Table.moveColumnAt t index pos)

/-- Modelled from the spec: `Table::moveColumn(const std::string &colName,
size_t pos)` of `table.h`. -/
def Table.moveColumnByName (t : Table) (colName : String) (pos : Nat) :
    Except TableError Table :=
  match ColumnMap.indexOf (fun c => c.name == colName) t.columns with
  | none => Except.error TableError.columnNotFound
  | some index =>
    if t.columns.length ≤ pos then Except.error TableError.indexOutOfRange
    else Except.ok (Table.moveColumnAt t index pos)

/-- One structural operation on the columns of a table. -/
inductive ColumnOp where
  | add (col : Column)
  | addDefault (col : Column) (defaultValue : Object)
  | insert (col : Column) (pos : Nat)
  | insertDefault (col : Column) (pos : Nat) (defaultValue : Object)
  | remove (colId : Nat)
  | removeByName (colName : String)
  | move (colId : Nat) (pos : Nat)
  | moveByName (colName : String) (pos : Nat)
deriving DecidableEq, Repr

/-- The table after one operation; `Except.error` when the operation throws,
which leaves the table as it was. -/
def Table.apply (t : Table) : ColumnOp → Except TableError Table
  | ColumnOp.add col =>
    match Table.addColumn t col with
    | Except.ok r => Except.ok r.2
    | Except.error e => Except.error e
  | ColumnOp.addDefault col v =>
    match Table.addColumnDefault t col v with
    | Except.ok r => Except.ok r.2
    | Except.error e => Except.error e
  | ColumnOp.insert col pos =>
    match Table.insertColumn t col pos with
    | Except.ok r => Except.ok r.2
    | Except.error e => Except.error e
  | ColumnOp.insertDefault col pos v =>
    match Table.insertColumnDefault t col pos v with
    | Except.ok r => Except.ok r.2
    | Except.error e => Except.error e
  | ColumnOp.remove colId => Table.removeColumn t colId
  | ColumnOp.removeByName colName => Table.removeColumnByName t colName
  | ColumnOp.move colId pos => Table.moveColumn t colId pos
  | ColumnOp.moveByName colName pos => Table.moveColumnByName t colName pos

/-- The table after a sequence of operations, each applied to the table the
ones before it left. -/
def Table.applyAll (t : Table) (ops : List ColumnOp) : Table :=
  ops.foldl (fun tab op =>
    match Table.apply tab op with
    | Except.ok tab2 => tab2
    | Except.error _ => tab) t

/-- A table with the columns "x" (`Int32`, id 1) and "y" (`Float`, id 2) and
two rows. -/
def demoTable : Table :=
  { columns := [columnX, ⟨2, "y", TypeFloat, ""⟩],
    rows := [[⟨some TypeInt32, [1, 0, 0, 0]⟩, ⟨some TypeFloat, [0, 0, 192, 63]⟩],
             [⟨some TypeInt32, [2, 0, 0, 0]⟩, ⟨some TypeFloat, [51, 51, 19, 64]⟩]] }

/-- A sequence of operations on `demoTable`: add "z" with a default value,
insert a column "w" at the front, move "x" to the end, remove "y". -/
def demoOps : List ColumnOp :=
  [ColumnOp.addDefault columnZ ⟨some TypeFloat, [0, 0, 0, 0]⟩,
   ColumnOp.insertDefault ⟨NO_ID, "w", TypeInt32, ""⟩ 0 ⟨some TypeInt32, [7, 0, 0, 0]⟩,
   ColumnOp.move 1 3,
   ColumnOp.remove 2]

/-! ## Arithmetic of size_t -/

theorem szSub_one_modEq (i : Nat) (hi : 1 ≤ i) : szSub i 1 ≡ i - 1 [MOD SIZE_MOD] := by
  unfold Nat.ModEq szSub SIZE_MOD
  norm_num
  omega

theorem szMul_modEq (a b : Nat) : szMul a b ≡ a * b [MOD SIZE_MOD] := by
  unfold szMul
  exact Nat.mod_modEq _ _

theorem szAdd_modEq (a b : Nat) : szAdd a b ≡ a + b [MOD SIZE_MOD] := by
  unfold szAdd
  exact Nat.mod_modEq _ _

theorem szAdd_lt (a b : Nat) : szAdd a b < SIZE_MOD :=
  Nat.mod_lt _ (by unfold SIZE_MOD; norm_num)

/-- The position computed by `read` and `write` is the specification's offset
reduced modulo `2 ^ 64`. -/
theorem itemPos_eq (H P S E i : Nat) (hi : 1 ≤ i) :
    szAdd H (szMul (szAdd (szMul E S) P) (szSub i 1)) = specItemOffset H P S E i % SIZE_MOD := by
  have h1 : szAdd (szMul E S) P ≡ E * S + P [MOD SIZE_MOD] :=
    (szAdd_modEq _ _).trans ((szMul_modEq E S).add_right P)
  have h2 : szMul (szAdd (szMul E S) P) (szSub i 1) ≡ (E * S + P) * (i - 1) [MOD SIZE_MOD] :=
    (szMul_modEq _ _).trans (h1.mul (szSub_one_modEq i hi))
  have h3 : szAdd H (szMul (szAdd (szMul E S) P) (szSub i 1))
      ≡ H + (E * S + P) * (i - 1) [MOD SIZE_MOD] :=
    (szAdd_modEq _ _).trans (h2.add_left H)
  have h4 : szAdd H (szMul (szAdd (szMul E S) P) (szSub i 1)) % SIZE_MOD
      = szAdd H (szMul (szAdd (szMul E S) P) (szSub i 1)) :=
    Nat.mod_eq_of_lt (szAdd_lt _ _)
  rw [← h4]
  exact h3

/-- The size computed by `createFile` is the specification's extent reduced
modulo `2 ^ 64`. -/
theorem fileSize_eq (H P S E n : Nat) :
    szAdd H (szMul (szAdd (szMul E S) P) n) = specFileExtent H P S E n % SIZE_MOD := by
  have h1 : szAdd (szMul E S) P ≡ E * S + P [MOD SIZE_MOD] :=
    (szAdd_modEq _ _).trans ((szMul_modEq E S).add_right P)
  have h2 : szMul (szAdd (szMul E S) P) n ≡ (E * S + P) * n [MOD SIZE_MOD] :=
    (szMul_modEq _ _).trans (h1.mul_right n)
  have h3 : szAdd H (szMul (szAdd (szMul E S) P) n) ≡ H + (E * S + P) * n [MOD SIZE_MOD] :=
    (szAdd_modEq _ _).trans (h2.add_left H)
  have h4 : szAdd H (szMul (szAdd (szMul E S) P) n) % SIZE_MOD
      = szAdd H (szMul (szAdd (szMul E S) P) n) :=
    Nat.mod_eq_of_lt (szAdd_lt _ _)
  rw [← h4]
  exact h3

/-! ## Positioned reads and writes -/

/-- The file operations `read` performs on an opened session: one `fseek` to
the computed position and, when it succeeds, one `fread` of one item. -/
theorem read_log (env : Env) (fmt : Format) (st : State) (impl : ImageIOImpl)
    (t : EmType) (f H i : Nat) (image : Image)
    (hopen : st.impl = some impl) (hfile : impl.file = some f) (htype : impl.type = some t)
    (hH : ∀ im : Image, fmt.getHeaderSize { impl with image := im } = H) :
    ∃ rest : List FileOp,
      ( ImageIO.read env fmt st i image).st.log
        = st.log ++ FileOp.fseek f
            (szAdd H (szMul (szAdd (szMul impl.dim.getItemSize t.size) impl.pad) (szSub i 1)))
            (env.fseek st.log f
              (szAdd H (szMul (szAdd (szMul impl.dim.getItemSize t.size) impl.pad) (szSub i 1))))
            :: rest
      ∧ (rest = [] ∨ ∃ r, rest = [FileOp.fread f (szMul impl.dim.getItemSize t.size) r]) := by
  obtain ⟨path, mode, file, dim, ty, pad, im⟩ := impl
  obtain ⟨si, sr, sl⟩ := st
  simp only at hopen hfile htype hH
  subst hopen hfile htype
  unfold ImageIO.read
  simp only [hH, ImageIO.getPadSize, EmType.getSize, ArrayDim.getItemSize]
  by_cases hrc : env.fseek sl f
      (szAdd H (szMul (szAdd (szMul (szMul (szMul dim.x dim.y) dim.z) t.size) pad) (szSub i 1))) = 0
  · refine ⟨_, ?_, Or.inr ⟨(env.fread (sl ++ [FileOp.fseek f
      (szAdd H (szMul (szAdd (szMul (szMul (szMul dim.x dim.y) dim.z) t.size) pad) (szSub i 1))) 0]) f
      (szMul (szMul (szMul dim.x dim.y) dim.z) t.size)).1, rfl⟩⟩
    simp only [hrc, ne_eq, not_true_eq_false, if_false]
    split <;> simp
  · refine ⟨[], ?_, Or.inl rfl⟩
    simp [hrc]

/-- The file operations `write` performs on an opened session when the image
has the file's element type: one `fseek` to the computed position and, when it
succeeds, one `fwrite` of one item. -/
theorem write_log (env : Env) (fmt : Format) (st : State) (impl : ImageIOImpl)
    (t : EmType) (f H i : Nat) (image : Image)
    (hopen : st.impl = some impl) (hfile : impl.file = some f) (htype : impl.type = some t)
    (hH : ∀ im : Image, fmt.getHeaderSize { impl with image := im } = H)
    (himg : image.getType = impl.type) :
    ∃ rest : List FileOp,
      ( ImageIO.write env fmt st i image).st.log
        = st.log ++ FileOp.fseek f
            (szAdd H (szMul (szAdd (szMul impl.dim.getItemSize t.size) impl.pad) (szSub i 1)))
            (env.fseek st.log f
              (szAdd H (szMul (szAdd (szMul impl.dim.getItemSize t.size) impl.pad) (szSub i 1))))
            :: rest
      ∧ (rest = [] ∨
          ∃ r, rest = [FileOp.fwrite f image.data (szMul impl.dim.getItemSize t.size) r]) := by
  obtain ⟨path, mode, file, dim, ty, pad, im⟩ := impl
  obtain ⟨si, sr, sl⟩ := st
  simp only at hopen hfile htype hH himg
  subst hopen hfile htype
  unfold ImageIO.write
  simp only [himg, ASSERT_ERROR, hH, ImageIO.getPadSize, EmType.getSize, ArrayDim.getItemSize,
    ne_eq, not_true_eq_false, decide_False, Bool.false_eq_true, if_false, Image.assign,
    Image.getDataPointer]
  by_cases hrc : env.fseek sl f
      (szAdd H (szMul (szAdd (szMul (szMul (szMul dim.x dim.y) dim.z) t.size) pad) (szSub i 1))) = 0
  · refine ⟨_, ?_, Or.inr ⟨env.fwrite (sl ++ [FileOp.fseek f
      (szAdd H (szMul (szAdd (szMul (szMul (szMul dim.x dim.y) dim.z) t.size) pad) (szSub i 1))) 0]) f
      image.data (szMul (szMul (szMul dim.x dim.y) dim.z) t.size), rfl⟩⟩
    simp [hrc]
  · refine ⟨[], ?_, Or.inl rfl⟩
    simp [hrc]

/-- C1: on an opened session with header size `H`, pad size `P`, element size
`S` and `E` elements per item, and for every 1-based index `i >= 1`, both
`read(i, image)` and `write(i, image)` (the latter when the image has the
file's type, so that it reaches the transfer) first `fseek` to the byte offset
`H + (E*S + P)*(i-1)` and only then transfer the item.  The offset is computed
in `size_t`: it is that number modulo `2 ^ 64`, hence that number itself
whenever it fits in a `size_t`. -/
theorem C1_item_offset (env : Env) (fmt : Format) (st : State) (impl : ImageIOImpl)
    (t : EmType) (f H i : Nat) (image : Image)
    (hopen : st.impl = some impl) (hfile : impl.file = some f) (htype : impl.type = some t)
    (hH : ∀ im : Image, fmt.getHeaderSize { impl with image := im } = H)
    (hi : 1 ≤ i) :
    (∃ pos rc rest,
        ( ImageIO.read env fmt st i image).st.log = st.log ++ FileOp.fseek f pos rc :: rest
        ∧ (rest = [] ∨ ∃ r, rest = [FileOp.fread f (szMul impl.dim.getItemSize t.size) r])
        ∧ pos = specItemOffset H impl.pad t.size impl.dim.getItemSize i % SIZE_MOD
        ∧ (specItemOffset H impl.pad t.size impl.dim.getItemSize i < SIZE_MOD →
            pos = specItemOffset H impl.pad t.size impl.dim.getItemSize i))
    ∧ (image.getType = impl.type →
        ∃ pos rc rest,
          ( ImageIO.write env fmt st i image).st.log = st.log ++ FileOp.fseek f pos rc :: rest
          ∧ (rest = [] ∨
              ∃ r, rest = [FileOp.fwrite f image.data (szMul impl.dim.getItemSize t.size) r])
          ∧ pos = specItemOffset H impl.pad t.size impl.dim.getItemSize i % SIZE_MOD
          ∧ (specItemOffset H impl.pad t.size impl.dim.getItemSize i < SIZE_MOD →
              pos = specItemOffset H impl.pad t.size impl.dim.getItemSize i)) := by
  have hpos := itemPos_eq H impl.pad t.size impl.dim.getItemSize i hi
  constructor
  · obtain ⟨rest, hlog, hrest⟩ := read_log env fmt st impl t f H i image hopen hfile htype hH
    refine ⟨_, _, rest, hlog, hrest, hpos, fun hlt => ?_⟩
    rw [hpos]
    exact Nat.mod_eq_of_lt hlt
  · intro himg
    obtain ⟨rest, hlog, hrest⟩ :=
      write_log env fmt st impl t f H i image hopen hfile htype hH himg
    refine ⟨_, _, rest, hlog, hrest, hpos, fun hlt => ?_⟩
    rw [hpos]
    exact Nat.mod_eq_of_lt hlt

/-- Running `open` with `demoFormat` and `demoEnv` gives the concrete states
used as examples. -/
theorem demo_states :
    ( ImageIO.open demoEnv demoFormat initState "a.mrc" READ_ONLY) = ⟨none, demoOpened⟩
    ∧ ( ImageIO.open demoEnv demoFormat initState "a.mrc" TRUNCATE) = ⟨none, demoTruncated⟩ := by
  constructor <;> rfl

/-- Witness of C1: the read-only demo session (H = 512, P = 0, S = 4, E = 100)
at index 5, where the offset is 512 + 400 * 4 = 2112. -/
theorem C1_item_offset_witness :
    (1 ≤ 5)
    ∧ (∃ pos rc rest,
        ( ImageIO.read demoEnv demoFormat demoOpened 5 demoFloatImage).st.log
          = demoOpened.log ++ FileOp.fseek 3 pos rc :: rest
        ∧ (rest = [] ∨ ∃ r, rest = [FileOp.fread 3 (szMul demoImpl.dim.getItemSize TypeFloat.size) r])
        ∧ pos = specItemOffset 512 demoImpl.pad TypeFloat.size demoImpl.dim.getItemSize 5 % SIZE_MOD
        ∧ (specItemOffset 512 demoImpl.pad TypeFloat.size demoImpl.dim.getItemSize 5 < SIZE_MOD →
            pos = specItemOffset 512 demoImpl.pad TypeFloat.size demoImpl.dim.getItemSize 5))
    ∧ (∃ pos rc rest,
        ( ImageIO.write demoEnv demoFormat demoOpened 5 demoFloatImage).st.log
          = demoOpened.log ++ FileOp.fseek 3 pos rc :: rest
        ∧ (rest = [] ∨ ∃ r, rest = [FileOp.fwrite 3 demoFloatImage.data
              (szMul demoImpl.dim.getItemSize TypeFloat.size) r])
        ∧ pos = specItemOffset 512 demoImpl.pad TypeFloat.size demoImpl.dim.getItemSize 5 % SIZE_MOD
        ∧ (specItemOffset 512 demoImpl.pad TypeFloat.size demoImpl.dim.getItemSize 5 < SIZE_MOD →
            pos = specItemOffset 512 demoImpl.pad TypeFloat.size demoImpl.dim.getItemSize 5))
    ∧ specItemOffset 512 demoImpl.pad TypeFloat.size demoImpl.dim.getItemSize 5 = 2112 :=
  ⟨by decide,
   (C1_item_offset demoEnv demoFormat demoOpened demoImpl TypeFloat 3 512 5 demoFloatImage
      rfl rfl rfl (fun _ => rfl) (by decide)).1,
   (C1_item_offset demoEnv demoFormat demoOpened demoImpl TypeFloat 3 512 5 demoFloatImage
      rfl rfl rfl (fun _ => rfl) (by decide)).2 rfl,
   by decide⟩

/-! ## createFile -/

/-- The result of `createFile` on a `TRUNCATE` session whose `writeHeader`
succeeds: the header is written, then the file is expanded and flushed. -/
theorem createFile_ok (fmt : Format) (st : State) (impl impl2 : ImageIOImpl)
    (adim : ArrayDim) (t : EmType)
    (hopen : st.impl = some impl) (hmode : impl.fileMode = TRUNCATE)
    (hwh : fmt.writeHeader st.log { impl with dim := adim, type := some t } = (none, impl2)) :
    ImageIO.createFile fmt st adim (some t)
      = ⟨none, { impl := some impl2, registry := st.registry,
                 log := st.log ++ [FileOp.writeHeader impl.file] ++
                   [FileOp.expand impl2.file
                      (szAdd (fmt.getHeaderSize impl2)
                        (szMul (szAdd (szMul adim.getItemSize t.size) impl2.pad) adim.n)),
                    FileOp.fflush impl2.file] }⟩ := by
  obtain ⟨si, sr, sl⟩ := st
  obtain ⟨path, mode, file, dim, ty, pad, im⟩ := impl
  simp only at hopen hwh hmode
  subst hopen hmode
  unfold ImageIO.createFile ImageIO.writeHeader
  simp [hwh, ImageIO.getPadSize, EmType.getSize]

/-- C2: in a `TRUNCATE` session, `createFile(dim, type)` writes the header and
then expands the file to `headerSize + (itemSize + padSize) * dim.n` bytes with
`itemSize = dim.itemSize * type.size` (header and pad size as the format
reports them once the header is written).  The size is computed in `size_t`:
it is that number modulo `2 ^ 64`, hence that number itself whenever it fits
in a `size_t`. -/
theorem C2_createFile_extent (fmt : Format) (st : State) (impl impl2 : ImageIOImpl)
    (adim : ArrayDim) (t : EmType) (H : Nat)
    (hopen : st.impl = some impl) (hmode : impl.fileMode = TRUNCATE)
    (hwh : fmt.writeHeader st.log { impl with dim := adim, type := some t } = (none, impl2))
    (hH : fmt.getHeaderSize impl2 = H) :
    ∃ fileSize,
      ( ImageIO.createFile fmt st adim (some t)).err = none
      ∧ ( ImageIO.createFile fmt st adim (some t)).st.log
          = st.log ++ [FileOp.writeHeader impl.file, FileOp.expand impl2.file fileSize,
                       FileOp.fflush impl2.file]
      ∧ fileSize = specFileExtent H impl2.pad t.size adim.getItemSize adim.n % SIZE_MOD
      ∧ (specFileExtent H impl2.pad t.size adim.getItemSize adim.n < SIZE_MOD →
          fileSize = specFileExtent H impl2.pad t.size adim.getItemSize adim.n) := by
  have hsize := fileSize_eq H impl2.pad t.size adim.getItemSize adim.n
  refine ⟨_, ?_, ?_, hsize, fun hlt => ?_⟩
  · rw [createFile_ok fmt st impl impl2 adim t hopen hmode hwh]
  · rw [createFile_ok fmt st impl impl2 adim t hopen hmode hwh]
    simp [hH]
  · rw [hsize]
    exact Nat.mod_eq_of_lt hlt

/-- Witness of C2: a 10x10 single-precision image with header size 512, pad 0
and n = 1 is pre-sized to 912 bytes. -/
theorem C2_createFile_extent_witness :
    demoTruncated.impl = some demoTruncImpl
    ∧ demoTruncImpl.fileMode = TRUNCATE
    ∧ (∃ fileSize,
        ( ImageIO.createFile demoFormat demoTruncated ⟨10, 10, 1, 1⟩ (some TypeFloat)).err = none
        ∧ ( ImageIO.createFile demoFormat demoTruncated ⟨10, 10, 1, 1⟩ (some TypeFloat)).st.log
            = demoTruncated.log ++ [FileOp.writeHeader (some 3), FileOp.expand (some 3) fileSize,
                FileOp.fflush (some 3)]
        ∧ fileSize = specFileExtent 512 0 4 (ArrayDim.getItemSize ⟨10, 10, 1, 1⟩) 1 % SIZE_MOD
        ∧ (specFileExtent 512 0 4 (ArrayDim.getItemSize ⟨10, 10, 1, 1⟩) 1 < SIZE_MOD →
            fileSize = specFileExtent 512 0 4 (ArrayDim.getItemSize ⟨10, 10, 1, 1⟩) 1))
    ∧ specFileExtent 512 0 4 (ArrayDim.getItemSize ⟨10, 10, 1, 1⟩) 1 = 912
    ∧ ( ImageIO.createFile demoFormat demoTruncated ⟨10, 10, 1, 1⟩ (some TypeFloat)).st.log
        = [FileOp.fopen "a.mrc" "w" (some 3), FileOp.writeHeader (some 3),
           FileOp.expand (some 3) 912, FileOp.fflush (some 3)] :=
  ⟨rfl, rfl,
   C2_createFile_extent demoFormat demoTruncated demoTruncImpl
     { demoTruncImpl with dim := ⟨10, 10, 1, 1⟩, type := some TypeFloat }
     ⟨10, 10, 1, 1⟩ TypeFloat 512 rfl rfl rfl rfl,
   by decide, by decide⟩

/-- C3: after `createFile(dim, type)` on a `TRUNCATE` session (the format's
`writeHeader` keeping the dimensions, type and handle it was given), for every
index `i` with `1 <= i <= dim.n` the bytes `[pos, pos + itemSize)` that
`write(i, image)` addresses lie inside the extent `fileSize` the file was
expanded to, provided the extent `headerSize + (itemSize + padSize) * dim.n`
does not overflow a `size_t`. -/
theorem C3_write_within_extent (env : Env) (fmt : Format) (st : State)
    (impl impl2 : ImageIOImpl) (adim : ArrayDim) (t : EmType) (f H i : Nat) (image : Image)
    (hopen : st.impl = some impl) (hmode : impl.fileMode = TRUNCATE)
    (hwh : fmt.writeHeader st.log { impl with dim := adim, type := some t } = (none, impl2))
    (hdim : impl2.dim = adim) (htype : impl2.type = some t) (hfile : impl2.file = some f)
    (hH : ∀ im : Image, fmt.getHeaderSize { impl2 with image := im } = H)
    (himg : image.getType = some t)
    (hi : 1 ≤ i) (hin : i ≤ adim.n)
    (hfit : specFileExtent H impl2.pad t.size adim.getItemSize adim.n < SIZE_MOD) :
    ∃ fileSize pos rc rest,
      FileOp.expand (some f) fileSize ∈ ( ImageIO.createFile fmt st adim (some t)).st.log
      ∧ ( ImageIO.write env fmt ( ImageIO.createFile fmt st adim (some t)).st i image).st.log
          = ( ImageIO.createFile fmt st adim (some t)).st.log ++ FileOp.fseek f pos rc :: rest
      ∧ pos + szMul adim.getItemSize t.size ≤ fileSize
      ∧ fileSize = specFileExtent H impl2.pad t.size adim.getItemSize adim.n := by
  have hcf := createFile_ok fmt st impl impl2 adim t hopen hmode hwh
  have hH0 : fmt.getHeaderSize impl2 = H := hH impl2.image
  have hsize := fileSize_eq H impl2.pad t.size adim.getItemSize adim.n
  rw [Nat.mod_eq_of_lt hfit] at hsize
  have hpos := itemPos_eq H impl2.pad t.size adim.getItemSize i hi
  obtain ⟨rest, hlog, -⟩ := write_log env fmt ( ImageIO.createFile fmt st adim (some t)).st
    impl2 t f H i image (by rw [hcf]) hfile htype hH (by rw [himg, htype])
  rw [hdim] at hlog
  refine ⟨_, _, _, rest, ?_, hlog, ?_, hsize⟩
  · rw [hcf, hfile, hH0]
    simp
  · rw [hpos, hsize]
    have h1 : specItemOffset H impl2.pad t.size adim.getItemSize i % SIZE_MOD
        ≤ specItemOffset H impl2.pad t.size adim.getItemSize i := Nat.mod_le _ _
    have h2 : szMul adim.getItemSize t.size ≤ adim.getItemSize * t.size := Nat.mod_le _ _
    have h3 : (adim.getItemSize * t.size + impl2.pad) * (i - 1)
          + (adim.getItemSize * t.size + impl2.pad)
        ≤ (adim.getItemSize * t.size + impl2.pad) * adim.n := by
      calc (adim.getItemSize * t.size + impl2.pad) * (i - 1)
            + (adim.getItemSize * t.size + impl2.pad)
          = (adim.getItemSize * t.size + impl2.pad) * (i - 1 + 1) := by ring
        _ = (adim.getItemSize * t.size + impl2.pad) * i := by rw [Nat.sub_add_cancel hi]
        _ ≤ (adim.getItemSize * t.size + impl2.pad) * adim.n := Nat.mul_le_mul_left _ hin
    unfold specItemOffset specFileExtent at *
    omega

/-- Witness of C3: the 10x10 single-precision file of 912 bytes; `write(1, _)`
addresses the bytes from 512 up to 912. -/
theorem C3_write_within_extent_witness :
    (1 ≤ 1) ∧ (1 ≤ (ArrayDim.mk 10 10 1 1).n)
    ∧ specFileExtent 512 0 4 (ArrayDim.getItemSize ⟨10, 10, 1, 1⟩) 1 < SIZE_MOD
    ∧ ∃ fileSize pos rc rest,
      FileOp.expand (some 3) fileSize
        ∈ ( ImageIO.createFile demoFormat demoTruncated ⟨10, 10, 1, 1⟩ (some TypeFloat)).st.log
      ∧ ( ImageIO.write demoEnv demoFormat
            ( ImageIO.createFile demoFormat demoTruncated ⟨10, 10, 1, 1⟩ (some TypeFloat)).st
            1 demoFloatImage).st.log
          = ( ImageIO.createFile demoFormat demoTruncated ⟨10, 10, 1, 1⟩ (some TypeFloat)).st.log
              ++ FileOp.fseek 3 pos rc :: rest
      ∧ pos + szMul (ArrayDim.getItemSize ⟨10, 10, 1, 1⟩) TypeFloat.size ≤ fileSize
      ∧ fileSize = specFileExtent 512 0 TypeFloat.size (ArrayDim.getItemSize ⟨10, 10, 1, 1⟩) 1 :=
  ⟨by decide, by decide, by decide,
   C3_write_within_extent demoEnv demoFormat demoTruncated demoTruncImpl
     { demoTruncImpl with dim := ⟨10, 10, 1, 1⟩, type := some TypeFloat }
     ⟨10, 10, 1, 1⟩ TypeFloat 3 512 1 demoFloatImage rfl rfl rfl rfl rfl rfl (fun _ => rfl) rfl
     (by decide) (by decide) (by decide)⟩

/-! ## Element types on read and write -/

/-- When the image already has an element type other than the file's, the
image `read` returns is the resized image, whatever the file holds: the record
goes to the scratch image of the session only. -/
theorem read_other_type_image (env : Env) (fmt : Format) (st : State) (impl : ImageIOImpl)
    (t u : EmType) (i : Nat) (image : Image)
    (hopen : st.impl = some impl) (htype : impl.type = some t)
    (himg : image.getType = some u) (hne : u ≠ t) :
    ( ImageIO.read env fmt st i image).image = image.resize { impl.dim with n := 1 } none := by
  obtain ⟨path, mode, file, dim, ty, pad, im⟩ := impl
  obtain ⟨si, sr, sl⟩ := st
  simp only at hopen htype
  subst hopen htype
  have hne2 : ¬ (some u = some t) := fun h => hne (Option.some.inj h)
  unfold ImageIO.read
  simp only [himg, hne2, decide_False, Bool.false_eq_true, if_false, reduceCtorEq]
  split
  · rfl
  · split
    · rfl
    · split <;> rfl

/-- C4 (the code at the failing input): the file holds the single-precision
record {1.5, 2.3} and the image has type `Int32`.  `read` succeeds, the record
is read into the scratch image of the session, but the image handed back holds
eight zero bytes whatever the file holds, not the converted values {1, 2}:
no conversion into the image's buffer takes place. -/
theorem C4_read_does_not_convert :
    ( ImageIO.read pairEnv demoFormat pairOpened 1 int32PairImage).err = none
    ∧ (( ImageIO.read pairEnv demoFormat pairOpened 1 int32PairImage).st.impl.map
        (fun impl => impl.image.data)) = some floatPairRecord
    ∧ ( ImageIO.read pairEnv demoFormat pairOpened 1 int32PairImage).image.type = some TypeInt32
    ∧ ( ImageIO.read pairEnv demoFormat pairOpened 1 int32PairImage).image.data
        = [0, 0, 0, 0, 0, 0, 0, 0]
    ∧ ( ImageIO.read pairEnv demoFormat pairOpened 1 int32PairImage).image.data ≠ int32PairRecord
    ∧ ∀ env : Env, ( ImageIO.read env demoFormat pairOpened 1 int32PairImage).image
        = ( ImageIO.read pairEnv demoFormat pairOpened 1 int32PairImage).image := by
  refine ⟨by decide, by decide, by decide, by decide, by decide, fun env => ?_⟩
  have htf : TypeInt32 ≠ TypeFloat := by decide
  rw [read_other_type_image env demoFormat pairOpened _ TypeFloat TypeInt32 1 int32PairImage
        rfl rfl rfl htf,
      read_other_type_image pairEnv demoFormat pairOpened _ TypeFloat TypeInt32 1 int32PairImage
        rfl rfl rfl htf]

/-- C5: `write(index, image)` on a session whose file element type differs
from the image's type fails with an error and leaves the state as it was (no
`fseek`, no `fwrite`: the log of file operations is unchanged); when the types
are identical no such error is raised (the call can then only fail on the
file itself). -/
theorem C5_write_type_check (env : Env) (fmt : Format) (st : State) (impl : ImageIOImpl)
    (i : Nat) (image : Image) (hopen : st.impl = some impl) :
    (image.getType ≠ impl.type →
        ImageIO.write env fmt st i image
          = ⟨some (Error.error "Type cast not implemented. Now image should have the same type."),
             st⟩)
    ∧ (image.getType = impl.type →
        ∀ msg, ( ImageIO.write env fmt st i image).err ≠ some (Error.error msg)) := by
  obtain ⟨si, sr, sl⟩ := st
  simp only at hopen
  subst hopen
  constructor
  · intro hne
    unfold ImageIO.write
    simp [ASSERT_ERROR, hne]
  · intro heq msg
    unfold ImageIO.write
    simp only [ASSERT_ERROR, heq, ne_eq, not_true_eq_false, decide_False, Bool.false_eq_true,
      if_false]
    split
    · simp
    · split
      · simp
      · split <;> simp

/-- Witness of C5: writing an `Int32` image to the single-precision demo file
fails and performs no file operation; writing a single-precision image
succeeds. -/
theorem C5_write_type_check_witness :
    demoRWOpened.impl = some demoRWImpl
    ∧ ( ImageIO.write demoEnv demoFormat demoRWOpened 1 demoInt32Image
          = ⟨some (Error.error "Type cast not implemented. Now image should have the same type."),
             demoRWOpened⟩)
    ∧ (∀ msg, ( ImageIO.write demoEnv demoFormat demoRWOpened 1 demoFloatImage).err
          ≠ some (Error.error msg))
    ∧ ( ImageIO.write demoEnv demoFormat demoRWOpened 1 demoFloatImage).err = none :=
  ⟨rfl,
   (C5_write_type_check demoEnv demoFormat demoRWOpened demoRWImpl 1 demoInt32Image rfl).1
     (by decide),
   (C5_write_type_check demoEnv demoFormat demoRWOpened demoRWImpl 1 demoFloatImage rfl).2 rfl,
   by decide⟩

/-- C6 (the code at the failing input): `fwrite` stores nothing and returns 0,
and `write` still returns without an error (the result of `fwrite` is only
logged); the sibling `read` does report a short `fread`. -/
theorem C6_short_write_not_reported :
    ( ImageIO.write shortWriteEnv demoFormat demoRWOpened 1 demoFloatImage).err = none
    ∧ ( ImageIO.write shortWriteEnv demoFormat demoRWOpened 1 demoFloatImage).st.log
        = demoRWOpened.log
            ++ [FileOp.fseek 3 512 0, FileOp.fwrite 3 demoFloatImage.data 400 0]
    ∧ ( ImageIO.read shortReadEnv demoFormat demoRWOpened 1 demoFloatImage).err
        = some (Error.sysError "Could not 'fread' data from file. ") := by
  refine ⟨by decide, rfl, by decide⟩

/-! ## Modes, open and close -/

/-- C7: in a session whose mode is `READ_ONLY` or `READ_WRITE`,
`createFile(dim, type)` fails with an error and leaves the state exactly as it
was: the stored dimensions and element type are unchanged and nothing is added
to the log of file operations (no header written, no file resized). -/
theorem C7_createFile_wrong_mode (fmt : Format) (st : State) (impl : ImageIOImpl)
    (adim : ArrayDim) (type : ConstTypePtr)
    (hopen : st.impl = some impl)
    (hmode : impl.fileMode = READ_ONLY ∨ impl.fileMode = READ_WRITE) :
    ImageIO.createFile fmt st adim type
      = ⟨some (Error.error "ImageIO::createFile can only be used with TRUNCATE mode."), st⟩ := by
  have hne : impl.fileMode ≠ TRUNCATE := by
    rcases hmode with h | h <;> rw [h] <;> decide
  unfold ImageIO.createFile
  simp only [hopen]
  rw [if_pos hne]

/-- Witness of C7: `createFile` on the read-only and on the read-write demo
session. -/
theorem C7_createFile_wrong_mode_witness :
    ( ImageIO.createFile demoFormat demoOpened ⟨5, 5, 1, 2⟩ (some TypeInt32)
        = ⟨some (Error.error "ImageIO::createFile can only be used with TRUNCATE mode."),
           demoOpened⟩)
    ∧ ( ImageIO.createFile demoFormat demoRWOpened ⟨5, 5, 1, 2⟩ (some TypeInt32)
        = ⟨some (Error.error "ImageIO::createFile can only be used with TRUNCATE mode."),
           demoRWOpened⟩) :=
  ⟨C7_createFile_wrong_mode demoFormat demoOpened demoImpl ⟨5, 5, 1, 2⟩ (some TypeInt32) rfl
     (Or.inl rfl),
   C7_createFile_wrong_mode demoFormat demoRWOpened demoRWImpl ⟨5, 5, 1, 2⟩ (some TypeInt32) rfl
     (Or.inr rfl)⟩

/-- The two ways `open` can go once the implementation is fixed: `fopen`
returns null (a system error), or it returns a handle and the header is read
unless the mode is `TRUNCATE`. -/
theorem open_eq (env : Env) (fmt : Format) (st : State) (path : String) (mode : Nat) :
    ImageIO.open env fmt st path mode
      = match env.fopen st.log path ( ImageIOImpl.getOpenMode mode) with
        | none =>
          ⟨some (Error.sysError ("Error opening file '" ++ path)),
           { impl := some { st.impl.getD fmt.createHandler with
                            path := path, fileMode := mode, file := none },
             registry := st.registry,
             log := st.log ++ [FileOp.fopen path ( ImageIOImpl.getOpenMode mode) none] }⟩
        | some h =>
          if mode ≠ TRUNCATE then
            ImageIO.readHeader fmt
              { impl := some { st.impl.getD fmt.createHandler with
                               path := path, fileMode := mode, file := some h },
                registry := st.registry,
                log := st.log ++ [FileOp.fopen path ( ImageIOImpl.getOpenMode mode) (some h)] }
          else
            ⟨none,
             { impl := some { st.impl.getD fmt.createHandler with
                              path := path, fileMode := mode, file := some h },
               registry := st.registry,
               log := st.log ++ [FileOp.fopen path ( ImageIOImpl.getOpenMode mode) (some h)] }⟩ := by
  obtain ⟨si, sr, sl⟩ := st
  unfold ImageIO.open ImageIOImpl.openFile
  cases hf : env.fopen sl path ( ImageIOImpl.getOpenMode mode) with
  | none => cases si <;> simp [hf]
  | some h => cases si <;> simp [hf]

/-- C8: a successful `open(path, mode)` has opened the file (one `fopen` of
`path` that returned a handle), has recorded `path`, `mode` and the handle in
the session's implementation (the one already bound, else the one
`createHandler` makes), and has then invoked the header-read routine on it if
and only if `mode != TRUNCATE`. -/
theorem C8_open_success (env : Env) (fmt : Format) (st : State) (path : String) (mode : Nat)
    (hok : ( ImageIO.open env fmt st path mode).err = none) :
    ∃ h impl1,
      env.fopen st.log path ( ImageIOImpl.getOpenMode mode) = some h
      ∧ impl1 = { st.impl.getD fmt.createHandler with
                  path := path, fileMode := mode, file := some h }
      ∧ (mode = TRUNCATE →
          ( ImageIO.open env fmt st path mode).st
            = { impl := some impl1, registry := st.registry,
                log := st.log ++ [FileOp.fopen path ( ImageIOImpl.getOpenMode mode) (some h)] })
      ∧ (mode ≠ TRUNCATE →
          ( ImageIO.open env fmt st path mode).st
            = { impl := some (fmt.readHeader
                  (st.log ++ [FileOp.fopen path ( ImageIOImpl.getOpenMode mode) (some h)])
                  impl1).2,
                registry := st.registry,
                log := st.log ++ [FileOp.fopen path ( ImageIOImpl.getOpenMode mode) (some h),
                                  FileOp.readHeader (some h)] }) := by
  rw [open_eq] at hok ⊢
  cases hf : env.fopen st.log path ( ImageIOImpl.getOpenMode mode) with
  | none => simp [hf] at hok
  | some h =>
    refine ⟨h, _, rfl, rfl, ?_, ?_⟩
    · intro hm
      simp [hm]
    · intro hm
      simp [hm, ImageIO.readHeader]

/-- Witness of C8: opening "a.mrc" read-only (header read) and with `TRUNCATE`
(header not read) in the demo environment. -/
theorem C8_open_success_witness :
    ( ImageIO.open demoEnv demoFormat initState "a.mrc" READ_ONLY).err = none
    ∧ (∃ h impl1,
        demoEnv.fopen initState.log "a.mrc" ( ImageIOImpl.getOpenMode READ_ONLY) = some h
        ∧ impl1 = { initState.impl.getD demoFormat.createHandler with
                    path := "a.mrc", fileMode := READ_ONLY, file := some h }
        ∧ (READ_ONLY = TRUNCATE →
            ( ImageIO.open demoEnv demoFormat initState "a.mrc" READ_ONLY).st
              = { impl := some impl1, registry := initState.registry,
                  log := initState.log
                    ++ [FileOp.fopen "a.mrc" ( ImageIOImpl.getOpenMode READ_ONLY) (some h)] })
        ∧ (READ_ONLY ≠ TRUNCATE →
            ( ImageIO.open demoEnv demoFormat initState "a.mrc" READ_ONLY).st
              = { impl := some (demoFormat.readHeader
                    (initState.log
                      ++ [FileOp.fopen "a.mrc" ( ImageIOImpl.getOpenMode READ_ONLY) (some h)])
                    impl1).2,
                  registry := initState.registry,
                  log := initState.log
                    ++ [FileOp.fopen "a.mrc" ( ImageIOImpl.getOpenMode READ_ONLY) (some h),
                        FileOp.readHeader (some h)] }))
    ∧ ( ImageIO.open demoEnv demoFormat initState "a.mrc" READ_ONLY).st.log
        = [FileOp.fopen "a.mrc" "r" (some 3), FileOp.readHeader (some 3)]
    ∧ ( ImageIO.open demoEnv demoFormat initState "a.mrc" TRUNCATE).st.log
        = [FileOp.fopen "a.mrc" "w" (some 3)] :=
  ⟨rfl, C8_open_success demoEnv demoFormat initState "a.mrc" READ_ONLY rfl, rfl, rfl⟩

/-- C10: `close()` never fails.  On a never-opened session (no impl) and on a
closed one (null file handle) it changes nothing; on an opened session it
calls `fclose` once on the handle and sets the handle to null; and `close()`
after `close()` changes nothing more.  The destructor, which calls `close()`,
does not fail either. -/
theorem C10_close_idempotent (st : State) :
    ( ImageIO.close st).err = none
    ∧ (st.impl = none → ( ImageIO.close st).st = st)
    ∧ (∀ impl, st.impl = some impl → impl.file = none → ( ImageIO.close st).st = st)
    ∧ (∀ impl f, st.impl = some impl → impl.file = some f →
        ( ImageIO.close st).st
          = { impl := some { impl with file := none }, registry := st.registry,
              log := st.log ++ [FileOp.fclose f] })
    ∧ ImageIO.close ( ImageIO.close st).st = ImageIO.close st
    ∧ ( ImageIO.destroy st).err = none := by
  obtain ⟨si, sr, sl⟩ := st
  cases si with
  | none => simp [ ImageIO.close, ImageIO.destroy]
  | some impl =>
    obtain ⟨path, mode, file, dim, ty, pad, im⟩ := impl
    cases file with
    | none =>
      refine ⟨rfl, fun _ => rfl, fun _ _ _ => rfl, ?_, rfl, rfl⟩
      intro impl f h hf
      cases h
      cases hf
    | some f =>
      refine ⟨rfl, ?_, ?_, ?_, rfl, rfl⟩
      · intro h
        cases h
      · intro impl h hf
        cases h
        cases hf
      · intro impl g h hf
        cases h
        cases hf
        rfl

/-- C9 as stated fails: on a session with no implementation bound, in a
process whose registry has no builder for any key, `open("img.xyz")` does not
fail with an unknown-format error; it succeeds, with the implementation that
`createHandler` made. -/
theorem C9_counterexample :
    initState.impl = none
    ∧ (∀ key : String, ImageIO.has initState key = false)
    ∧ ( ImageIO.open demoEnv demoFormat initState "img.xyz" READ_ONLY).err = none
    ∧ (( ImageIO.open demoEnv demoFormat initState "img.xyz" READ_ONLY).st.impl.map
        (fun impl => impl.path)) = some "img.xyz" := by
  refine ⟨rfl, fun key => rfl, rfl, rfl⟩

/-- C9 (amended): when `open(path, mode)` is called on a session with no
implementation bound, the implementation is the one `createHandler` makes; the
registry is not consulted and the extension of `path` is not examined, so the
outcome is the same whatever the registry holds.  `open` fails only when
`fopen` returns null (a system error) or, for `mode != TRUNCATE`, when
`readHeader` fails. -/
theorem C9_open_uses_createHandler (env : Env) (fmt : Format) (st : State)
    (path : String) (mode : Nat) (hnone : st.impl = none) :
    (∀ reg : ImplRegistry,
        ImageIO.open env fmt { st with registry := reg } path mode
          = ⟨( ImageIO.open env fmt st path mode).err,
             { ( ImageIO.open env fmt st path mode).st with registry := reg }⟩)
    ∧ (env.fopen st.log path ( ImageIOImpl.getOpenMode mode) = none →
        ImageIO.open env fmt st path mode
          = ⟨some (Error.sysError ("Error opening file '" ++ path)),
             { impl := some { fmt.createHandler with
                              path := path, fileMode := mode, file := none },
               registry := st.registry,
               log := st.log ++ [FileOp.fopen path ( ImageIOImpl.getOpenMode mode) none] }⟩)
    ∧ (∀ h, env.fopen st.log path ( ImageIOImpl.getOpenMode mode) = some h →
        mode = TRUNCATE →
        ImageIO.open env fmt st path mode
          = ⟨none,
             { impl := some { fmt.createHandler with
                              path := path, fileMode := mode, file := some h },
               registry := st.registry,
               log := st.log ++ [FileOp.fopen path ( ImageIOImpl.getOpenMode mode) (some h)] }⟩)
    ∧ (∀ h, env.fopen st.log path ( ImageIOImpl.getOpenMode mode) = some h →
        mode ≠ TRUNCATE →
        ( ImageIO.open env fmt st path mode).err
          = (fmt.readHeader
              (st.log ++ [FileOp.fopen path ( ImageIOImpl.getOpenMode mode) (some h)])
              { fmt.createHandler with path := path, fileMode := mode, file := some h }).1) := by
  obtain ⟨si, sr, sl⟩ := st
  simp only at hnone
  subst hnone
  refine ⟨fun reg => ?_, fun hf => ?_, fun h hf hm => ?_, fun h hf hm => ?_⟩
  · rw [open_eq, open_eq]
    cases hf : env.fopen sl path ( ImageIOImpl.getOpenMode mode) with
    | none => simp
    | some h =>
      by_cases hm : mode = TRUNCATE
      · simp [hm]
      · simp [hm, ImageIO.readHeader]
  · rw [open_eq]
    simp only at hf
    simp [hf]
  · subst hm
    rw [open_eq]
    simp only at hf
    simp [hf]
  · rw [open_eq]
    simp only at hf
    simp [hf, hm, ImageIO.readHeader]

/-- Witness of C9 (amended): opening "img.xyz" on a fresh session. -/
theorem C9_open_uses_createHandler_witness :
    initState.impl = none
    ∧ (∀ reg : ImplRegistry,
        ImageIO.open demoEnv demoFormat { initState with registry := reg } "img.xyz" READ_ONLY
          = ⟨( ImageIO.open demoEnv demoFormat initState "img.xyz" READ_ONLY).err,
             { ( ImageIO.open demoEnv demoFormat initState "img.xyz" READ_ONLY).st with
               registry := reg }⟩)
    ∧ ( ImageIO.open demoEnv demoFormat initState "img.xyz" TRUNCATE
          = ⟨none,
             { impl := some { demoFormat.createHandler with
                              path := "img.xyz", fileMode := TRUNCATE, file := some 3 },
               registry := initState.registry,
               log := initState.log
                 ++ [FileOp.fopen "img.xyz" ( ImageIOImpl.getOpenMode TRUNCATE) (some 3)] }⟩) :=
  ⟨rfl,
   (C9_open_uses_createHandler demoEnv demoFormat initState "img.xyz" READ_ONLY rfl).1,
   (C9_open_uses_createHandler demoEnv demoFormat initState "img.xyz" TRUNCATE rfl).2.2.1 3
     rfl rfl⟩

/-! ## Reopening and reading by location -/

/-- `open` never calls `fclose`: every `fclose` in the log after `open` was in
the log before. -/
theorem open_no_fclose (env : Env) (fmt : Format) (st : State) (path : String) (mode : Nat)
    (g : Nat) (hg : FileOp.fclose g ∈ ( ImageIO.open env fmt st path mode).st.log) :
    FileOp.fclose g ∈ st.log := by
  rw [open_eq] at hg
  cases hf : env.fopen st.log path ( ImageIOImpl.getOpenMode mode) with
  | none =>
    rw [hf] at hg
    simpa using hg
  | some h =>
    rw [hf] at hg
    by_cases hm : mode = TRUNCATE
    · simpa [hm] using hg
    · simpa [hm, ImageIO.readHeader] using hg

/-- C11 as stated fails: the demo session is Opened with handle 3; a second
`open` succeeds, stores the new handle 4 in place of 3, and handle 3 has not
been closed. -/
theorem C11_counterexample :
    (demoOpened.impl.map (fun impl => impl.file)) = some (some 3)
    ∧ ( ImageIO.open reopenEnv demoFormat demoOpened "b.mrc" READ_ONLY).err = none
    ∧ (( ImageIO.open reopenEnv demoFormat demoOpened "b.mrc" READ_ONLY).st.impl.map
        (fun impl => impl.file)) = some (some 4)
    ∧ ( ImageIO.open reopenEnv demoFormat demoOpened "b.mrc" READ_ONLY).st.log
        = [FileOp.fopen "a.mrc" "r" (some 3), FileOp.readHeader (some 3),
           FileOp.fopen "b.mrc" "r" (some 4), FileOp.readHeader (some 4)]
    ∧ FileOp.fclose 3
        ∉ ( ImageIO.open reopenEnv demoFormat demoOpened "b.mrc" READ_ONLY).st.log := by
  refine ⟨rfl, rfl, rfl, rfl, by decide⟩

/-- C11 (amended): `open` does not look at the state of the session.  On a
session that is already Opened (handle `f`) a second `open` does exactly what
it does on the same session with a null handle: `fopen` of the new path, the
result stored as the session's handle, the header read unless the mode is
`TRUNCATE`; it does not fail on account of `f` and never calls `fclose`.  When
`close()` is called first, `f` is closed before the new file is opened. -/
theorem C11_open_ignores_open_handle (env : Env) (fmt : Format) (st : State)
    (impl : ImageIOImpl) (f : Nat) (path : String) (mode : Nat)
    (hopen : st.impl = some impl) (hfile : impl.file = some f) :
    ImageIO.open env fmt st path mode
      = ImageIO.open env fmt { st with impl := some { impl with file := none } } path mode
    ∧ (∀ g, FileOp.fclose g ∈ ( ImageIO.open env fmt st path mode).st.log →
        FileOp.fclose g ∈ st.log)
    ∧ (∃ rest, ( ImageIO.open env fmt ( ImageIO.close st).st path mode).st.log
        = st.log ++ FileOp.fclose f
            :: FileOp.fopen path ( ImageIOImpl.getOpenMode mode)
                 (env.fopen (st.log ++ [FileOp.fclose f]) path ( ImageIOImpl.getOpenMode mode))
            :: rest) := by
  obtain ⟨si, sr, sl⟩ := st
  obtain ⟨p0, m0, file, dim, ty, pad, im⟩ := impl
  simp only at hopen hfile
  subst hopen hfile
  refine ⟨?_, fun g hg => open_no_fclose env fmt _ path mode g hg, ?_⟩
  · rw [open_eq, open_eq]
    rfl
  · rw [open_eq]
    simp only [ ImageIO.close]
    cases hf : env.fopen (sl ++ [FileOp.fclose f]) path ( ImageIOImpl.getOpenMode mode) with
    | none => exact ⟨[], by simp⟩
    | some h =>
      by_cases hm : mode = TRUNCATE
      · exact ⟨[], by simp [hm]⟩
      · exact ⟨[FileOp.readHeader (some h)], by simp [hm, ImageIO.readHeader]⟩

/-- Witness of C11 (amended): the demo session, Opened with handle 3. -/
theorem C11_open_ignores_open_handle_witness :
    demoOpened.impl = some demoImpl ∧ demoImpl.file = some 3
    ∧ ImageIO.open reopenEnv demoFormat demoOpened "b.mrc" READ_ONLY
      = ImageIO.open reopenEnv demoFormat
          { demoOpened with impl := some { demoImpl with file := none } } "b.mrc" READ_ONLY
    ∧ (∀ g, FileOp.fclose g
          ∈ ( ImageIO.open reopenEnv demoFormat demoOpened "b.mrc" READ_ONLY).st.log →
        FileOp.fclose g ∈ demoOpened.log)
    ∧ (∃ rest,
        ( ImageIO.open reopenEnv demoFormat ( ImageIO.close demoOpened).st "b.mrc"
            READ_ONLY).st.log
        = demoOpened.log ++ FileOp.fclose 3
            :: FileOp.fopen "b.mrc" ( ImageIOImpl.getOpenMode READ_ONLY)
                 (reopenEnv.fopen (demoOpened.log ++ [FileOp.fclose 3]) "b.mrc"
                    ( ImageIOImpl.getOpenMode READ_ONLY))
            :: rest) :=
  ⟨rfl, rfl,
   C11_open_ignores_open_handle reopenEnv demoFormat demoOpened demoImpl 3 "b.mrc" READ_ONLY
     rfl rfl⟩

/-- C12 (the code at the failing input): the file opens and its header is
read, but `fread` delivers less than one item.  `read(index, image)` throws,
`close()` is not reached, and after the call the session still holds the open
handle 3; no `fclose` has been performed.  When no step throws, the call
leaves a null handle and has closed the file. -/
theorem C12_read_location_keeps_file_open :
    ( ImageIO.readLocation shortReadEnv demoFormat initState ⟨1, "a.mrc"⟩ demoFloatImage).err
        = some (Error.sysError "Could not 'fread' data from file. ")
    ∧ (( ImageIO.readLocation shortReadEnv demoFormat initState ⟨1, "a.mrc"⟩
          demoFloatImage).st.impl.map (fun impl => impl.file)) = some (some 3)
    ∧ ( ImageIO.readLocation shortReadEnv demoFormat initState ⟨1, "a.mrc"⟩
          demoFloatImage).st.log
        = [FileOp.fopen "a.mrc" "r" (some 3), FileOp.readHeader (some 3),
           FileOp.fseek 3 512 0, FileOp.fread 3 400 0]
    ∧ ( ImageIO.readLocation demoEnv demoFormat initState ⟨1, "a.mrc"⟩ demoFloatImage).err
        = none
    ∧ (( ImageIO.readLocation demoEnv demoFormat initState ⟨1, "a.mrc"⟩
          demoFloatImage).st.impl.map (fun impl => impl.file)) = some none
    ∧ ( ImageIO.readLocation demoEnv demoFormat initState ⟨1, "a.mrc"⟩ demoFloatImage).st.log
        = [FileOp.fopen "a.mrc" "r" (some 3), FileOp.readHeader (some 3),
           FileOp.fseek 3 512 0, FileOp.fread 3 400 1, FileOp.fclose 3] := by
  refine ⟨rfl, rfl, rfl, rfl, rfl, rfl⟩

/-- C16: the open-mode constants are `READ_ONLY = 0`, `READ_WRITE = 1` and
`TRUNCATE = 2`, and `getOpenMode` maps them to "r", "r+" and "w"; any other
mode value gets "r", the initial value of the `switch`. -/
theorem C16_open_modes :
    READ_ONLY = 0 ∧ READ_WRITE = 1 ∧ TRUNCATE = 2
    ∧ ImageIOImpl.getOpenMode READ_ONLY = "r"
    ∧ ImageIOImpl.getOpenMode READ_WRITE = "r+"
    ∧ ImageIOImpl.getOpenMode TRUNCATE = "w"
    ∧ (∀ mode, mode ≠ READ_WRITE → mode ≠ TRUNCATE → ImageIOImpl.getOpenMode mode = "r") := by
  refine ⟨rfl, rfl, rfl, rfl, rfl, rfl, fun mode h1 h2 => ?_⟩
  unfold ImageIOImpl.getOpenMode
  rw [if_neg h1, if_neg h2]

/-! ## The registry of formats -/

/-- Looking up `key` among the entries under other keys than `k` is looking it
up among all entries, when `key` is not `k`. -/
theorem find_filter_ne (reg : ImplRegistry) (k key : String) (hne : key ≠ k) :
    (reg.filter (fun e => e.1 != k)).find? (fun e => e.1 == key)
      = reg.find? (fun e => e.1 == key) := by
  induction reg with
  | nil => rfl
  | cons e rest ih =>
    by_cases hk : e.1 = k
    · have hkey : ¬ e.1 = key := fun h => hne (h ▸ hk)
      have hkey2 : ¬ k = key := fun h => hne h.symm
      simp [List.filter_cons, List.find?_cons, hk, hkey2, ih]
    · by_cases hkey : e.1 = key
      · simp [List.filter_cons, List.find?_cons, hk, hkey, hne]
      · simp [List.filter_cons, List.find?_cons, hk, hkey, ih]

/-- The lookup after one registration. -/
theorem getImplBuilder_registerImpl (reg : ImplRegistry) (k key : String) (b : Nat) :
    ImplRegistry.getImplBuilder (ImplRegistry.registerImpl reg k b) key
      = if key = k then b else ImplRegistry.getImplBuilder reg key := by
  unfold ImplRegistry.getImplBuilder ImplRegistry.registerImpl
  by_cases h : key = k
  · subst h
    simp [List.find?_cons]
  · have h2 : (k == key) = false := by simpa using fun h3 : k = key => h h3.symm
    rw [List.find?_cons, find_filter_ne reg k key h]
    simp only [h2, if_neg h]

/-- The presence test is the lookup of an entry. -/
theorem hasImpl_eq (reg : ImplRegistry) (key : String) :
    ImplRegistry.hasImpl reg key = (reg.find? (fun e => e.1 == key)).isSome := by
  unfold ImplRegistry.hasImpl
  induction reg with
  | nil => rfl
  | cons e rest ih =>
    by_cases hkey : e.1 = key
    · have hb : (e.1 == key) = true := by simpa using hkey
      rw [List.any_cons, List.find?_cons]
      simp only [hb, Bool.true_or, Option.isSome_some]
    · have hb : (e.1 == key) = false := by simpa using hkey
      rw [List.any_cons, List.find?_cons, ih]
      simp only [hb, Bool.false_or]

/-- The presence test after one registration. -/
theorem hasImpl_registerImpl (reg : ImplRegistry) (k key : String) (b : Nat) :
    ImplRegistry.hasImpl (ImplRegistry.registerImpl reg k b) key
      = if key = k then true else ImplRegistry.hasImpl reg key := by
  rw [hasImpl_eq, hasImpl_eq]
  unfold ImplRegistry.registerImpl
  by_cases h : key = k
  · subst h
    simp [List.find?_cons]
  · have h2 : (k == key) = false := by simpa using fun h3 : k = key => h h3.symm
    rw [List.find?_cons, find_filter_ne reg k key h]
    simp only [h2, if_neg h]

/-- The lookup after registering one builder under a list of keys. -/
theorem getImplBuilder_foldl (keys : List String) (reg : ImplRegistry) (key : String) (b : Nat) :
    ImplRegistry.getImplBuilder
        (keys.foldl (fun r k => ImplRegistry.registerImpl r k b) reg) key
      = if key ∈ keys then b else ImplRegistry.getImplBuilder reg key := by
  induction keys generalizing reg with
  | nil => simp
  | cons k rest ih =>
    rw [List.foldl_cons, ih, getImplBuilder_registerImpl]
    by_cases h1 : key ∈ rest
    · simp [h1]
    · by_cases h2 : key = k
      · simp [h2]
      · simp [h1, h2]

/-- The presence test after registering one builder under a list of keys. -/
theorem hasImpl_foldl (keys : List String) (reg : ImplRegistry) (key : String) (b : Nat) :
    ImplRegistry.hasImpl
        (keys.foldl (fun r k => ImplRegistry.registerImpl r k b) reg) key
      = if key ∈ keys then true else ImplRegistry.hasImpl reg key := by
  induction keys generalizing reg with
  | nil => simp
  | cons k rest ih =>
    rw [List.foldl_cons, ih, hasImpl_registerImpl]
    by_cases h1 : key ∈ rest
    · simp [h1]
    · by_cases h2 : key = k
      · simp [h2]
      · simp [h1, h2]

/-- The lookup after `ImageIO::set`. -/
theorem getImplBuilder_set (st : State) (reader : Reader) (b : Nat) (key : String) :
    ImplRegistry.getImplBuilder ( ImageIO.set st reader b).2.registry key
      = if key = reader.name ∨ key ∈ reader.extensions then b
        else ImplRegistry.getImplBuilder st.registry key := by
  unfold ImageIO.set
  simp only
  rw [getImplBuilder_registerImpl, getImplBuilder_foldl]
  by_cases h1 : key = reader.name
  · simp [h1]
  · by_cases h2 : key ∈ reader.extensions
    · simp [h1, h2]
    · simp [h1, h2]

/-- The presence test after `ImageIO::set`. -/
theorem hasImpl_set (st : State) (reader : Reader) (b : Nat) (key : String) :
    ImplRegistry.hasImpl ( ImageIO.set st reader b).2.registry key
      = if key = reader.name ∨ key ∈ reader.extensions then true
        else ImplRegistry.hasImpl st.registry key := by
  unfold ImageIO.set
  simp only
  rw [hasImpl_registerImpl, hasImpl_foldl]
  by_cases h1 : key = reader.name
  · simp [h1]
  · by_cases h2 : key ∈ reader.extensions
    · simp [h1, h2]
    · simp [h1, h2]

/-- After `ImageIO::set` every key of the reader is present. -/
theorem has_set_keys (st : State) (reader : Reader) (builder : Nat) :
    ∀ key, key ∈ reader.extensions ∨ key = reader.name →
      ImageIO.has ( ImageIO.set st reader builder).2 key = true := by
  intro key hkey
  have hk : key = reader.name ∨ key ∈ reader.extensions := hkey.symm
  unfold ImageIO.has
  rw [hasImpl_set]
  simp [hk]

/-- C13: after `ImageIO::set(reader, builder)` with a builder that is not
null, for every extension the reader declares and for the reader's name,
`ImageIO::has(key)` is true and `ImageIO::get(key)` returns the object made by
`builder`; for every other key `has` and `get` answer as before the call. -/
theorem C13_set_registers (st : State) (reader : Reader) (builder : Nat)
    (hb : builder ≠ 0) :
    (∀ key, key ∈ reader.extensions ∨ key = reader.name →
        ImageIO.has ( ImageIO.set st reader builder).2 key = true
        ∧ ImageIO.get ( ImageIO.set st reader builder).2 key = ImageIOPtr.builtBy builder)
    ∧ (∀ key, key ∉ reader.extensions → key ≠ reader.name →
        ImageIO.has ( ImageIO.set st reader builder).2 key = ImageIO.has st key
        ∧ ImageIO.get ( ImageIO.set st reader builder).2 key = ImageIO.get st key) := by
  constructor
  · intro key hkey
    have hk : key = reader.name ∨ key ∈ reader.extensions := hkey.symm
    unfold ImageIO.has ImageIO.get
    rw [hasImpl_set, getImplBuilder_set]
    simp [hk, hb]
  · intro key h1 h2
    have hk : ¬ (key = reader.name ∨ key ∈ reader.extensions) := by
      rintro (h | h)
      · exact h2 h
      · exact h1 h
    unfold ImageIO.has ImageIO.get
    rw [hasImpl_set, getImplBuilder_set]
    simp [hk]

/-- Witness of C13: registering the builder 7 for `demoReader` in a process
with an empty registry. -/
theorem C13_set_registers_witness :
    (7 ≠ 0)
    ∧ (∀ key, key ∈ demoReader.extensions ∨ key = demoReader.name →
        ImageIO.has ( ImageIO.set initState demoReader 7).2 key = true
        ∧ ImageIO.get ( ImageIO.set initState demoReader 7).2 key = ImageIOPtr.builtBy 7)
    ∧ (∀ key, key ∉ demoReader.extensions → key ≠ demoReader.name →
        ImageIO.has ( ImageIO.set initState demoReader 7).2 key = ImageIO.has initState key
        ∧ ImageIO.get ( ImageIO.set initState demoReader 7).2 key = ImageIO.get initState key)
    ∧ ImageIO.get ( ImageIO.set initState demoReader 7).2 "mrcs" = ImageIOPtr.builtBy 7
    ∧ ImageIO.get ( ImageIO.set initState demoReader 7).2 "spi" = ImageIOPtr.null :=
  ⟨by decide, (C13_set_registers initState demoReader 7 (by decide)).1,
   (C13_set_registers initState demoReader 7 (by decide)).2, by decide, by decide⟩

/-- C14: for every key and every pair of builders `b1`, `b2`, registering the
key with `b1` and then with `b2` makes the lookup of the key return `b2`; the
same holds through `ImageIO::set` for every key the second reader declares,
and `ImageIO::get` then returns the object `b2` makes.  For instance "mrc",
registered with the builder 7 by `demoReader` and then with 8 by
`otherReader`, is looked up as 8. -/
theorem C14_last_write_wins (st : State) (key : String) (b1 b2 : Nat) :
    ImplRegistry.getImplBuilder
        (ImplRegistry.registerImpl (ImplRegistry.registerImpl st.registry key b1) key b2) key
      = b2
    ∧ (∀ r1 r2 : Reader, key ∈ r2.extensions ∨ key = r2.name →
        ImplRegistry.getImplBuilder
            ( ImageIO.set ( ImageIO.set st r1 b1).2 r2 b2).2.registry key = b2
        ∧ (b2 ≠ 0 →
            ImageIO.get ( ImageIO.set ( ImageIO.set st r1 b1).2 r2 b2).2 key
              = ImageIOPtr.builtBy b2))
    ∧ ImplRegistry.getImplBuilder
        ( ImageIO.set ( ImageIO.set initState demoReader 7).2 otherReader 8).2.registry "mrc"
      = 8 := by
  refine ⟨?_, fun r1 r2 hkey => ?_, by decide⟩
  · rw [getImplBuilder_registerImpl]
    simp
  · have hk : key = r2.name ∨ key ∈ r2.extensions := hkey.symm
    have hget : ImplRegistry.getImplBuilder
        ( ImageIO.set ( ImageIO.set st r1 b1).2 r2 b2).2.registry key = b2 := by
      rw [getImplBuilder_set]
      simp [hk]
    refine ⟨hget, fun hb => ?_⟩
    unfold ImageIO.get
    simp only [hget]
    simp [hb]

/-- C15 as stated fails: `demoReader` is registered twice; at the second call
every key (both extensions and the name) already exists, and `ImageIO::set`
still returns `true`. -/
theorem C15_counterexample :
    (∀ key, key ∈ demoReader.extensions ∨ key = demoReader.name →
        ImageIO.has ( ImageIO.set initState demoReader 7).2 key = true)
    ∧ ( ImageIO.set ( ImageIO.set initState demoReader 7).2 demoReader 8).1 = true := by
  refine ⟨fun key hkey => ?_, rfl⟩
  exact ((has_set_keys initState demoReader 7) key hkey)

/-- C15 (amended): `ImageIO::set` registers the builder under every extension
of the reader and under its name, replacing any builder registered before, and
always returns `true`, whether or not any of the keys was new. -/
theorem C15_set_returns_true (st : State) (reader : Reader) (builder : Nat) :
    ( ImageIO.set st reader builder).1 = true
    ∧ (∀ key, key ∈ reader.extensions ∨ key = reader.name →
        ImplRegistry.hasImpl ( ImageIO.set st reader builder).2.registry key = true
        ∧ ImplRegistry.getImplBuilder ( ImageIO.set st reader builder).2.registry key
            = builder) := by
  refine ⟨rfl, fun key hkey => ?_⟩
  have hk : key = reader.name ∨ key ∈ reader.extensions := hkey.symm
  rw [hasImpl_set, getImplBuilder_set]
  simp [hk]

/-! ## Type singletons -/

/-- The lookup in statics with one more instance in front. -/
theorem lookup_cons (k k2 : Kind) (a n : Nat) (rest : List (Kind × Nat)) :
    TypeStatics.lookup ⟨(k2, a) :: rest, n⟩ k
      = if k2 = k then some a else TypeStatics.lookup ⟨rest, n⟩ k := by
  unfold TypeStatics.lookup
  by_cases h : k2 = k
  · simp [List.find?_cons, h]
  · have hb : (k2 == k) = false := by simpa using h
    simp only [List.find?_cons, hb, if_neg h]

/-- The lookup does not depend on `next`. -/
theorem lookup_next (l : List (Kind × Nat)) (n m : Nat) (k : Kind) :
    TypeStatics.lookup ⟨l, n⟩ k = TypeStatics.lookup ⟨l, m⟩ k := rfl

/-- A call of `Type::get<T>` returns what the lookup finds. -/
theorem get_of_lookup (s : TypeStatics) (k : Kind) (a : Nat) (h : s.lookup k = some a) :
    EmType.get k s = (a, s) := by
  unfold EmType.get
  rw [h]

/-- The first call of an instantiation returns the next free address. -/
theorem get_fresh (s : TypeStatics) (k : Kind) (h : s.lookup k = none) :
    ( EmType.get k s).1 = s.next := by
  unfold EmType.get
  rw [h]

/-- After a call of `Type::get<T>` the instantiation is initialised, at the
address returned. -/
theorem lookup_get_self (s : TypeStatics) (k : Kind) :
    ( EmType.get k s).2.lookup k = some ( EmType.get k s).1 := by
  unfold EmType.get
  cases h : s.lookup k with
  | some a => simpa using h
  | none =>
    obtain ⟨l, n⟩ := s
    simp [lookup_cons]

/-- An initialised instantiation keeps its address through later calls. -/
theorem lookup_get_stable (s : TypeStatics) (k k2 : Kind) (a : Nat)
    (h : s.lookup k = some a) : ( EmType.get k2 s).2.lookup k = some a := by
  unfold EmType.get
  cases h2 : s.lookup k2 with
  | some b => simpa using h
  | none =>
    obtain ⟨l, n⟩ := s
    have hne : ¬ k2 = k := by
      intro heq
      rw [heq, h] at h2
      cases h2
    simp only [lookup_cons, if_neg hne]
    exact h

/-- An initialised instantiation keeps its address through any number of later
calls. -/
theorem lookup_getAll_stable (ks : List Kind) (s : TypeStatics) (k : Kind) (a : Nat)
    (h : s.lookup k = some a) : ( EmType.getAll ks s).lookup k = some a := by
  induction ks generalizing s with
  | nil => exact h
  | cons k2 rest ih =>
    unfold EmType.getAll
    rw [List.foldl_cons]
    exact ih _ (lookup_get_stable s k k2 a h)

/-- The invariant holds before any call. -/
theorem inv_init : TypeStatics.init.Inv := by
  constructor
  · intro k a h
    cases h
  · intro k1 k2 a h
    cases h

/-- A call of `Type::get<T>` keeps the invariant. -/
theorem inv_get (s : TypeStatics) (k : Kind) (hinv : s.Inv) : ( EmType.get k s).2.Inv := by
  unfold EmType.get
  cases h : s.lookup k with
  | some a => simpa using hinv
  | none =>
    obtain ⟨l, n⟩ := s
    obtain ⟨hlt, hinj⟩ := hinv
    constructor
    · intro k1 a h1
      simp only [lookup_cons] at h1
      by_cases hk : k = k1
      · rw [if_pos hk] at h1
        cases h1
        exact Nat.lt_succ_self n
      · rw [if_neg hk] at h1
        exact Nat.lt_succ_of_lt (hlt k1 a h1)
    · intro k1 k2 a h1 h2
      simp only [lookup_cons] at h1 h2
      by_cases hk1 : k = k1
      · by_cases hk2 : k = k2
        · exact hk1.symm.trans hk2
        · rw [if_pos hk1] at h1
          rw [if_neg hk2] at h2
          cases h1
          exact absurd (hlt k2 n h2) (Nat.lt_irrefl n)
      · by_cases hk2 : k = k2
        · rw [if_neg hk1] at h1
          rw [if_pos hk2] at h2
          cases h2
          exact absurd (hlt k1 n h1) (Nat.lt_irrefl n)
        · rw [if_neg hk1] at h1
          rw [if_neg hk2] at h2
          exact hinj k1 k2 a h1 h2

/-- Any number of calls of `Type::get<T>` keep the invariant. -/
theorem inv_getAll (ks : List Kind) (s : TypeStatics) (hinv : s.Inv) :
    ( EmType.getAll ks s).Inv := by
  induction ks generalizing s with
  | nil => exact hinv
  | cons k rest ih =>
    unfold EmType.getAll
    rw [List.foldl_cons]
    exact ih _ (inv_get s k hinv)

/-- C19: for every kind `K`, whatever calls of `Type::get` came before and
whatever calls come in between, a later call of `Type::get<K>()` returns the
same pointer as the first one, and a call for a different kind returns a
different pointer.  The nine constants `TypeInt8` to `TypeString` of `type.h`
are pairwise distinct pointers. -/
theorem C19_type_get_singleton (before between : List Kind) (k : Kind) :
    ( EmType.get k ( EmType.getAll between
        ( EmType.get k ( EmType.getAll before TypeStatics.init)).2)).1
      = ( EmType.get k ( EmType.getAll before TypeStatics.init)).1
    ∧ (∀ k2, k2 ≠ k →
        ( EmType.get k2 ( EmType.getAll between
            ( EmType.get k ( EmType.getAll before TypeStatics.init)).2)).1
          ≠ ( EmType.get k ( EmType.getAll before TypeStatics.init)).1)
    ∧ libraryTypePointers.Nodup
    ∧ libraryTypePointers.length = libraryKinds.length := by
  have hinv0 := inv_getAll before TypeStatics.init inv_init
  have hinv1 := inv_get _ k hinv0
  have hinv2 := inv_getAll between _ hinv1
  have hl1 := lookup_get_self ( EmType.getAll before TypeStatics.init) k
  have hl2 := lookup_getAll_stable between _ k _ hl1
  refine ⟨?_, fun k2 hne => ?_, by decide, by decide⟩
  · rw [get_of_lookup _ k _ hl2]
  · intro heq
    cases h2 : ( EmType.getAll between
        ( EmType.get k ( EmType.getAll before TypeStatics.init)).2).lookup k2 with
    | some b =>
      rw [get_of_lookup _ k2 b h2] at heq
      simp only at heq
      rw [heq] at h2
      exact hne (hinv2.2 k2 k _ h2 hl2)
    | none =>
      rw [get_fresh _ k2 h2] at heq
      have hlt := hinv2.1 k _ hl2
      rw [← heq] at hlt
      exact Nat.lt_irrefl _ hlt

/-! ## Inferring a type from text -/

/-- C20: `inferFromString` returns `Int32` for every input that parses as an
integer, `Float` for every input that parses as a real number but not as an
integer, and `String` for every other input; the (pointer, n) form applies the
same rule to the window of n characters.  The calls of `test_type.cpp`:
"100" is `Int32`, "100.00" is `Float`, "192.168.100.1", "/this/is/a/path" and
the line "100 3.4 4.5 abc" are `String`, and the four windows of three
characters of that line are `Int32`, `Float`, `Float` and `String`. -/
theorem C20_inferFromString (str : String) :
    (isIntegerToken str.toList = true → EmType.inferFromString str = TypeInt32)
    ∧ (isIntegerToken str.toList = false → isRealToken str.toList = true →
        EmType.inferFromString str = TypeFloat)
    ∧ (isIntegerToken str.toList = false → isRealToken str.toList = false →
        EmType.inferFromString str = TypeString)
    ∧ (∀ offset n, EmType.inferFromStringN str offset n
        = EmType.inferFromString (String.mk ((str.toList.drop offset).take n)))
    ∧ EmType.inferFromString "100" = TypeInt32
    ∧ EmType.inferFromString "100.00" = TypeFloat
    ∧ EmType.inferFromString "3.4" = TypeFloat
    ∧ EmType.inferFromString "192.168.100.1" = TypeString
    ∧ EmType.inferFromString "/this/is/a/path" = TypeString
    ∧ EmType.inferFromString "abc" = TypeString
    ∧ EmType.inferFromString "100 3.4 4.5 abc" = TypeString
    ∧ EmType.inferFromStringN "100 3.4 4.5 abc" 0 3 = TypeInt32
    ∧ EmType.inferFromStringN "100 3.4 4.5 abc" 4 3 = TypeFloat
    ∧ EmType.inferFromStringN "100 3.4 4.5 abc" 8 3 = TypeFloat
    ∧ EmType.inferFromStringN "100 3.4 4.5 abc" 12 3 = TypeString := by
  refine ⟨fun h => ?_, fun h1 h2 => ?_, fun h1 h2 => ?_, fun _ _ => rfl,
    by decide, by decide, by decide, by decide, by decide, by decide, by decide,
    by decide, by decide, by decide, by decide⟩
  · unfold EmType.inferFromString
    rw [if_pos h]
  · unfold EmType.inferFromString
    rw [if_neg (by rw [h1]; decide), if_pos h2]
  · unfold EmType.inferFromString
    rw [if_neg (by rw [h1]; decide), if_neg (by rw [h2]; decide)]

/-! ## Casting between kinds -/

/-- Four bytes written least significant first hold the number again. -/
theorem fromLE_toLE_four (b : Nat) (h : b < 2 ^ 32) : fromLE (toLE 4 b) = b := by
  simp only [toLE, fromLE]
  omega

/-- The floor of a natural number scaled by a power of two. -/
theorem floor_scaled (sig ex shift : Nat) :
    ⌊(sig : ℚ) * (2 : ℚ) ^ ((ex : ℤ) - (shift : ℤ))⌋
      = ((if shift ≤ ex then sig * 2 ^ (ex - shift) else sig / 2 ^ (shift - ex) : Nat) : ℤ) := by
  by_cases h : shift ≤ ex
  · rw [if_pos h]
    have hz : (ex : ℤ) - (shift : ℤ) = ((ex - shift : Nat) : ℤ) := by
      rw [Nat.cast_sub h]
    rw [hz, zpow_natCast]
    have hc : (sig : ℚ) * (2 : ℚ) ^ (ex - shift) = ((sig * 2 ^ (ex - shift) : Nat) : ℚ) := by
      push_cast
      ring
    rw [hc]
    exact Int.floor_natCast _
  · rw [if_neg h]
    have hle : ex ≤ shift := Nat.le_of_lt (Nat.lt_of_not_le h)
    have hz : (ex : ℤ) - (shift : ℤ) = -((shift - ex : Nat) : ℤ) := by
      rw [Nat.cast_sub hle]
      ring
    rw [hz, zpow_neg, zpow_natCast]
    have hc : (sig : ℚ) * ((2 : ℚ) ^ (shift - ex))⁻¹
        = ((sig : ℤ) : ℚ) / ((2 ^ (shift - ex) : Nat) : ℚ) := by
      push_cast
      rw [div_eq_mul_inv]
    rw [hc, Rat.floor_intCast_div_natCast]
    norm_cast

/-- The truncation toward zero of a signed, scaled natural number. -/
theorem truncTowardZero_signed (negative : Bool) (sig ex shift : Nat) :
    truncTowardZero ((if negative = true then -1 else 1)
        * ((sig : ℚ) * (2 : ℚ) ^ ((ex : ℤ) - (shift : ℤ))))
      = if negative = true
        then -((if shift ≤ ex then sig * 2 ^ (ex - shift) else sig / 2 ^ (shift - ex) : Nat) : ℤ)
        else ((if shift ≤ ex then sig * 2 ^ (ex - shift) else sig / 2 ^ (shift - ex) : Nat) : ℤ) := by
  have hnn : (0 : ℚ) ≤ (sig : ℚ) * (2 : ℚ) ^ ((ex : ℤ) - (shift : ℤ)) :=
    mul_nonneg (Nat.cast_nonneg sig) (zpow_nonneg (by norm_num) _)
  have hfl := floor_scaled sig ex shift
  cases negative with
  | false =>
    simp only [Bool.false_eq_true, if_false, one_mul]
    unfold truncTowardZero
    rw [if_pos hnn, hfl]
  | true =>
    simp only [if_true, neg_mul, one_mul]
    unfold truncTowardZero
    by_cases h0 : (0 : ℚ) ≤ -((sig : ℚ) * (2 : ℚ) ^ ((ex : ℤ) - (shift : ℤ)))
    · have hz : (sig : ℚ) * (2 : ℚ) ^ ((ex : ℤ) - (shift : ℤ)) = 0 := by linarith
      rw [if_pos h0, ← hfl, hz]
      simp
    · rw [if_neg h0, neg_neg, hfl]

/-- The magnitude `truncFloatBits` computes with shifts is the value of the
bit pattern truncated toward zero. -/
theorem truncFloatBits_spec (expBits manBits bits : Nat) (negative : Bool) (magnitude : Nat)
    (h : truncFloatBits expBits manBits bits = some (negative, magnitude)) :
    truncTowardZero (floatValue expBits manBits bits)
      = if negative = true then -(magnitude : ℤ) else (magnitude : ℤ) := by
  unfold truncFloatBits at h
  simp only at h
  split at h
  · cases h
  · simp only [Option.some.injEq, Prod.mk.injEq] at h
    obtain ⟨hneg, hmag⟩ := h
    unfold floatValue
    simp only
    have hsign : (if bits / 2 ^ (manBits + expBits) % 2 = 1 then (-1 : ℚ) else 1)
        = (if negative = true then (-1 : ℚ) else 1) := by
      rw [← hneg]
      simp
    rw [hsign, truncTowardZero_signed, ← hmag]

/-- A finite single-precision pattern has a truncated magnitude. -/
theorem truncFloatBits_finite (b : Nat) (hfin : isFiniteFloat32 b = true) :
    ∃ negative magnitude, truncFloatBits 8 23 b = some (negative, magnitude) := by
  unfold isFiniteFloat32 at hfin
  simp only [decide_eq_true_eq] at hfin
  unfold truncFloatBits
  simp only
  rw [if_neg hfin]
  exact ⟨_, _, rfl⟩

/-- The cast of one single-precision element into `Int32`. -/
theorem castElement_float_int32 (b : Nat) (hb : b < 2 ^ 32)
    (hfin : isFiniteFloat32 b = true)
    (hlo : -(2 : ℤ) ^ 31 ≤ truncTowardZero (floatValue 8 23 b))
    (hhi : truncTowardZero (floatValue 8 23 b) < (2 : ℤ) ^ 31) :
    castElement Kind.int32 Kind.float (toLE 4 b)
      = CastResult.ok (encodeInt 4 (truncTowardZero (floatValue 8 23 b))) := by
  obtain ⟨negative, magnitude, hsome⟩ := truncFloatBits_finite b hfin
  have hspec := truncFloatBits_spec 8 23 b negative magnitude hsome
  have hne : ¬ (Kind.int32 = Kind.float) := by decide
  have hstr : ¬ (Kind.int32 = Kind.string ∨ Kind.float = Kind.string) := by decide
  unfold castElement
  rw [if_neg hne, if_neg hstr]
  simp only [Kind.isFloating, Kind.isInteger, Kind.expBits, Kind.manBits, Kind.isSigned,
    Kind.size, Bool.false_eq_true, if_false, fromLE_toLE_four b hb, hsome]
  rw [← hspec]
  have hr : intInRange true 4 (truncTowardZero (floatValue 8 23 b)) = true := by
    unfold intInRange
    simp only [if_true, decide_eq_true_eq]
    exact ⟨hlo, hhi⟩
  rw [if_pos hr]

/-- A bit pattern is castable when the shift computation gives a magnitude in
the range of `Int32`. -/
theorem castable_of_bits (b : Nat) (negative : Bool) (magnitude : Nat)
    (hb : b < 2 ^ 32) (h : truncFloatBits 8 23 b = some (negative, magnitude))
    (hr : intInRange true 4 (if negative = true then -(magnitude : ℤ) else (magnitude : ℤ))
      = true) :
    castableToInt32 b := by
  have hspec := truncFloatBits_spec 8 23 b negative magnitude h
  have hfin : isFiniteFloat32 b = true := by
    unfold isFiniteFloat32
    simp only [decide_eq_true_eq]
    intro he
    unfold truncFloatBits at h
    simp only at h
    rw [if_pos he] at h
    cases h
  unfold intInRange at hr
  simp only [if_true, decide_eq_true_eq] at hr
  rw [← hspec] at hr
  exact ⟨hb, hfin, hr.1, hr.2⟩

/-- The cast of an array of single-precision elements into `Int32`, element
by element. -/
theorem castElements_float_int32 (xs : List Nat) (hx : ∀ b ∈ xs, castableToInt32 b) :
    castElements Kind.int32 Kind.float xs.length (xs.flatMap (toLE 4))
      = CastResult.ok
          (xs.flatMap (fun b => encodeInt 4 (truncTowardZero (floatValue 8 23 b)))) := by
  induction xs with
  | nil => rfl
  | cons b rest ih =>
    have hb := hx b (List.mem_cons_self b rest)
    have hrest := ih (fun c hc => hx c (List.mem_cons_of_mem b hc))
    have htake : (toLE 4 b ++ rest.flatMap (toLE 4)).take 4 = toLE 4 b := by
      simp [toLE]
    have hdrop : (toLE 4 b ++ rest.flatMap (toLE 4)).drop 4 = rest.flatMap (toLE 4) := by
      simp [toLE]
    rw [List.flatMap_cons, List.flatMap_cons, List.length_cons]
    unfold castElements
    simp only [Kind.size, htake, hdrop,
      castElement_float_int32 b hb.1 hb.2.1 hb.2.2.1 hb.2.2.2, hrest]

/-- An `Int32` value written as four bytes is read back as the same value. -/
theorem decodeInt_encodeInt_four (v : ℤ) (hlo : -(2 : ℤ) ^ 31 ≤ v) (hhi : v < (2 : ℤ) ^ 31) :
    decodeInt true 4 (encodeInt 4 v) = v := by
  unfold decodeInt encodeInt
  have hlt : (v % (2 : ℤ) ^ (8 * 4)).toNat < 2 ^ 32 := by
    have h1 : v % (2 : ℤ) ^ (8 * 4) < (2 : ℤ) ^ (8 * 4) := Int.emod_lt_of_pos _ (by norm_num)
    have h2 : 0 ≤ v % (2 : ℤ) ^ (8 * 4) := Int.emod_nonneg _ (by norm_num)
    norm_num at h1 h2 ⊢
    omega
  have htake : (toLE 4 (v % (2 : ℤ) ^ (8 * 4)).toNat).take 4
      = toLE 4 (v % (2 : ℤ) ^ (8 * 4)).toNat := by
    simp [toLE]
  simp only [htake, fromLE_toLE_four _ hlt]
  norm_num at hlo hhi hlt ⊢
  split <;> omega

/-- C18: for every array of single-precision values whose casts are defined
(finite values that, truncated, are values of `Int32`), `Type::castFrom` into
`Int32` yields element by element the value truncated toward zero, as the
four bytes of that integer.  For instance {1.5, 2.3} becomes {1, 2}.  The cast
cannot be undone: 1.5 and 1.0 are both cast to 1. -/
theorem C18_float_to_int32_truncates (xs : List Nat) (hx : ∀ b ∈ xs, castableToInt32 b) :
    TypeInt32.castFrom (xs.flatMap (toLE 4)) xs.length (some TypeFloat)
      = CastResult.ok
          (xs.flatMap (fun b => encodeInt 4 (truncTowardZero (floatValue 8 23 b))))
    ∧ (∀ b ∈ xs, decodeInt true 4 (encodeInt 4 (truncTowardZero (floatValue 8 23 b)))
        = truncTowardZero (floatValue 8 23 b))
    ∧ TypeInt32.castFrom floatPairRecord 2 (some TypeFloat) = CastResult.ok int32PairRecord
    ∧ TypeInt32.castFrom [0, 0, 192, 63] 1 (some TypeFloat)
        = TypeInt32.castFrom [0, 0, 128, 63] 1 (some TypeFloat) := by
  refine ⟨?_, fun b hb => ?_, by decide, by decide⟩
  · have h1 : TypeInt32.kind = some Kind.int32 := by decide
    have h2 : TypeFloat.kind = some Kind.float := by decide
    unfold EmType.castFrom
    simp only [h1, h2]
    exact castElements_float_int32 xs hx
  · exact decodeInt_encodeInt_four _ (hx b hb).2.2.1 (hx b hb).2.2.2

/-- Witness of C18: the array {1.5, 2.3}, whose elements truncate to 1 and
2. -/
theorem C18_float_to_int32_truncates_witness :
    (∀ b ∈ floatPairBits, castableToInt32 b)
    ∧ floatPairBits.flatMap (toLE 4) = floatPairRecord
    ∧ TypeInt32.castFrom (floatPairBits.flatMap (toLE 4)) floatPairBits.length (some TypeFloat)
      = CastResult.ok (floatPairBits.flatMap
          (fun b => encodeInt 4 (truncTowardZero (floatValue 8 23 b))))
    ∧ truncTowardZero (floatValue 8 23 1069547520) = 1
    ∧ truncTowardZero (floatValue 8 23 1075000115) = 2 :=
  have hall : ∀ b ∈ floatPairBits, castableToInt32 b := by
    intro b hb
    simp only [floatPairBits, List.mem_cons, List.mem_singleton, List.not_mem_nil,
      or_false] at hb
    rcases hb with h | h
    · rw [h]
      exact castable_of_bits 1069547520 false 1 (by decide) (by decide) (by decide)
    · rw [h]
      exact castable_of_bits 1075000115 false 2 (by decide) (by decide) (by decide)
  ⟨hall, by decide, (C18_float_to_int32_truncates floatPairBits hall).1,
   truncFloatBits_spec 8 23 1069547520 false 1 (by decide),
   truncFloatBits_spec 8 23 1075000115 false 2 (by decide)⟩

/-! ## Objects -/

/-- C17: a default-constructed `Object` has the Null type; assigning a value
to an object of the Null type makes its type the type of the value; and for
every object of a type `T` that is not Null, an assignment whose conversion
`Type::castFrom` is defined leaves the type equal to `T` and stores the value
converted to `T`.  For instance an object that got the `Int32` value 1 and is
then assigned the single-precision value 2.2 has type `Int32` and value 2. -/
theorem C17_object_type_sticky :
    Object.null.type = none
    ∧ (∀ (o : Object) (u : EmType) (bytes : List Nat), o.type = none →
        Object.assign o u bytes = CastResult.ok ⟨some u, bytes⟩)
    ∧ (∀ (o : Object) (T u : EmType) (bytes out : List Nat), o.type = some T →
        T.castFrom bytes 1 (some u) = CastResult.ok out →
        Object.assign o u bytes = CastResult.ok ⟨some T, out⟩)
    ∧ (∀ (o o2 : Object) (T u : EmType) (bytes : List Nat), o.type = some T →
        Object.assign o u bytes = CastResult.ok o2 → o2.type = some T)
    ∧ Object.assign Object.null TypeInt32 (encodeInt 4 1)
        = CastResult.ok ⟨some TypeInt32, [1, 0, 0, 0]⟩
    ∧ Object.assign ⟨some TypeInt32, [1, 0, 0, 0]⟩ TypeFloat float2p2
        = CastResult.ok ⟨some TypeInt32, encodeInt 4 2⟩
    ∧ truncTowardZero (floatValue 8 23 (fromLE float2p2)) = 2 := by
  refine ⟨rfl, ?_, ?_, ?_, by decide, by decide,
    truncFloatBits_spec 8 23 (fromLE float2p2) false 2 (by decide)⟩
  · intro o u bytes h
    unfold Object.assign
    rw [h]
  · intro o T u bytes out h hc
    unfold Object.assign
    rw [h]
    simp only [hc]
  · intro o o2 T u bytes h ha
    unfold Object.assign at ha
    rw [h] at ha
    simp only at ha
    split at ha
    · cases ha
      rfl
    · cases ha
    · cases ha
    · cases ha

/-! ## Index zero, and what `read` asks of the file -/

/-- When the `fseek` succeeds, `read` goes on with one `fread` of one item. -/
theorem read_log_ok (env : Env) (fmt : Format) (st : State) (impl : ImageIOImpl)
    (t : EmType) (f H i : Nat) (image : Image)
    (hopen : st.impl = some impl) (hfile : impl.file = some f) (htype : impl.type = some t)
    (hH : ∀ im : Image, fmt.getHeaderSize { impl with image := im } = H)
    (hrc : env.fseek st.log f
        (szAdd H (szMul (szAdd (szMul impl.dim.getItemSize t.size) impl.pad) (szSub i 1))) = 0) :
    ∃ r, ( ImageIO.read env fmt st i image).st.log
      = st.log ++ [FileOp.fseek f
          (szAdd H (szMul (szAdd (szMul impl.dim.getItemSize t.size) impl.pad) (szSub i 1))) 0,
          FileOp.fread f (szMul impl.dim.getItemSize t.size) r] := by
  obtain ⟨path, mode, file, dim, ty, pad, im⟩ := impl
  obtain ⟨si, sr, sl⟩ := st
  simp only at hopen hfile htype hH hrc
  subst hopen hfile htype
  simp only [ArrayDim.getItemSize] at hrc
  unfold ImageIO.read
  simp only [hH, ImageIO.getPadSize, EmType.getSize, ArrayDim.getItemSize, hrc, ne_eq,
    not_true_eq_false, if_false]
  refine ⟨(env.fread (sl ++ [FileOp.fseek f
      (szAdd H (szMul (szAdd (szMul (szMul (szMul dim.x dim.y) dim.z) t.size) pad) (szSub i 1)))
      0]) f (szMul (szMul (szMul dim.x dim.y) dim.z) t.size)).1, ?_⟩
  split <;> simp

/-- The exception `read` throws on an opened session: only a failing `fseek`
or an `fread` that does not deliver one item make it throw. -/
theorem read_err (env : Env) (fmt : Format) (st : State) (impl : ImageIOImpl)
    (t : EmType) (f H i : Nat) (image : Image)
    (hopen : st.impl = some impl) (hfile : impl.file = some f) (htype : impl.type = some t)
    (hH : ∀ im : Image, fmt.getHeaderSize { impl with image := im } = H) :
    ( ImageIO.read env fmt st i image).err
      = if env.fseek st.log f
            (szAdd H (szMul (szAdd (szMul impl.dim.getItemSize t.size) impl.pad) (szSub i 1)))
            ≠ 0
        then some (Error.sysError "Could not 'fseek' in file. ")
        else if (env.fread (st.log ++ [FileOp.fseek f
            (szAdd H (szMul (szAdd (szMul impl.dim.getItemSize t.size) impl.pad) (szSub i 1)))
            (env.fseek st.log f
              (szAdd H (szMul (szAdd (szMul impl.dim.getItemSize t.size) impl.pad)
                (szSub i 1))))]) f (szMul impl.dim.getItemSize t.size)).1 ≠ 1
        then some (Error.sysError "Could not 'fread' data from file. ")
        else none := by
  obtain ⟨path, mode, file, dim, ty, pad, im⟩ := impl
  obtain ⟨si, sr, sl⟩ := st
  simp only at hopen hfile htype hH
  subst hopen hfile htype
  unfold ImageIO.read
  simp only [hH, ImageIO.getPadSize, EmType.getSize, ArrayDim.getItemSize]
  split
  · rfl
  · split <;> rfl

/-- The exception `write` throws on an opened session when the image has the
file's element type: only a failing `fseek` makes it throw. -/
theorem write_err (env : Env) (fmt : Format) (st : State) (impl : ImageIOImpl)
    (t : EmType) (f H i : Nat) (image : Image)
    (hopen : st.impl = some impl) (hfile : impl.file = some f) (htype : impl.type = some t)
    (hH : ∀ im : Image, fmt.getHeaderSize { impl with image := im } = H)
    (himg : image.getType = impl.type) :
    ( ImageIO.write env fmt st i image).err
      = if env.fseek st.log f
            (szAdd H (szMul (szAdd (szMul impl.dim.getItemSize t.size) impl.pad) (szSub i 1)))
            ≠ 0
        then some (Error.sysError "Could not 'fseek' in file. ")
        else none := by
  obtain ⟨path, mode, file, dim, ty, pad, im⟩ := impl
  obtain ⟨si, sr, sl⟩ := st
  simp only at hopen hfile htype hH himg
  subst hopen hfile htype
  unfold ImageIO.write
  simp only [himg, ASSERT_ERROR, hH, ImageIO.getPadSize, EmType.getSize, ArrayDim.getItemSize,
    ne_eq, not_true_eq_false, decide_False, Bool.false_eq_true, if_false, Image.assign,
    Image.getDataPointer]
  split <;> rfl

/-- The dimensions and the element type of the image `read` hands back on an
opened session. -/
theorem read_image (env : Env) (fmt : Format) (st : State) (impl : ImageIOImpl)
    (t : EmType) (f i : Nat) (image : Image)
    (hopen : st.impl = some impl) (hfile : impl.file = some f) (htype : impl.type = some t) :
    ( ImageIO.read env fmt st i image).image.dim = { impl.dim with n := 1 }
    ∧ ( ImageIO.read env fmt st i image).image.type
        = if image.getType = none then some t else image.getType := by
  obtain ⟨path, mode, file, dim, ty, pad, im⟩ := impl
  obtain ⟨si, sr, sl⟩ := st
  simp only at hopen hfile htype
  subst hopen hfile htype
  unfold ImageIO.read
  simp only
  by_cases hn : image.getType = none
  · have hn2 : image.type = none := hn
    simp only [hn, if_true]
    split_ifs <;> simp [Image.resize, hn2]
  · have hn2 : ¬ image.type = none := hn
    simp only [hn, if_false]
    split_ifs <;> simp [Image.resize, Image.getType]

/-- The position `read` and `write` compute for index 0: `index - 1` wraps to
`2 ^ 64 - 1`, so the position is `H + (itemSize + P) * (2 ^ 64 - 1)` modulo
`2 ^ 64`, that is `H - (itemSize + P)` modulo `2 ^ 64`. -/
theorem itemPos_zero (H P itemSize : Nat) :
    szSub 0 1 = SIZE_MOD - 1
    ∧ szAdd H (szMul (szAdd itemSize P) (szSub 0 1))
        = (H + (itemSize + P) * (SIZE_MOD - 1)) % SIZE_MOD
    ∧ (szAdd H (szMul (szAdd itemSize P) (szSub 0 1)) + (itemSize + P)) % SIZE_MOD
        = H % SIZE_MOD := by
  have hsub : szSub 0 1 = SIZE_MOD - 1 := by decide
  have h1 : szAdd itemSize P ≡ itemSize + P [MOD SIZE_MOD] := szAdd_modEq _ _
  have h2 : szMul (szAdd itemSize P) (szSub 0 1) ≡ (itemSize + P) * (SIZE_MOD - 1)
      [MOD SIZE_MOD] := by
    rw [hsub]
    exact (szMul_modEq _ _).trans (h1.mul_right _)
  have h3 : szAdd H (szMul (szAdd itemSize P) (szSub 0 1))
      ≡ H + (itemSize + P) * (SIZE_MOD - 1) [MOD SIZE_MOD] :=
    (szAdd_modEq _ _).trans (h2.add_left H)
  have h4 : szAdd H (szMul (szAdd itemSize P) (szSub 0 1)) % SIZE_MOD
      = szAdd H (szMul (szAdd itemSize P) (szSub 0 1)) :=
    Nat.mod_eq_of_lt (szAdd_lt _ _)
  refine ⟨hsub, ?_, ?_⟩
  · rw [← h4]
    exact h3
  · have hpos : 1 ≤ SIZE_MOD := by decide
    have h5 : H + (itemSize + P) * (SIZE_MOD - 1) + (itemSize + P)
        = H + (itemSize + P) * SIZE_MOD := by
      have h6 : (itemSize + P) * (SIZE_MOD - 1) + (itemSize + P)
          = (itemSize + P) * SIZE_MOD := by
        calc (itemSize + P) * (SIZE_MOD - 1) + (itemSize + P)
            = (itemSize + P) * (SIZE_MOD - 1 + 1) := by ring
          _ = (itemSize + P) * SIZE_MOD := by rw [Nat.sub_add_cancel hpos]
      omega
    have h7 : szAdd H (szMul (szAdd itemSize P) (szSub 0 1)) + (itemSize + P)
        ≡ H + (itemSize + P) * SIZE_MOD [MOD SIZE_MOD] := by
      rw [← h5]
      exact h3.add_right _
    have h8 : H + (itemSize + P) * SIZE_MOD ≡ H [MOD SIZE_MOD] := by
      unfold Nat.ModEq
      exact Nat.add_mul_mod_self_right _ _ _
    exact h7.trans h8

/-- C24: `read(0, image)` and `write(0, image)` are not rejected.  On an opened
session they `fseek` to the position computed with `index - 1` wrapped around
in `size_t` (64 bits): `(headerSize + (itemSize + padSize) * (2 ^ 64 - 1))`
modulo `2 ^ 64`, which is `headerSize - (itemSize + padSize)` modulo `2 ^ 64`;
the call fails only if `fseek` (or `fread`) fails. -/
theorem C24_index_zero_wraps (env : Env) (fmt : Format) (st : State) (impl : ImageIOImpl)
    (t : EmType) (f H : Nat) (image : Image)
    (hopen : st.impl = some impl) (hfile : impl.file = some f) (htype : impl.type = some t)
    (hH : ∀ im : Image, fmt.getHeaderSize { impl with image := im } = H) :
    SIZE_MOD = 2 ^ 64
    ∧ (∃ pos rc rest,
        ( ImageIO.read env fmt st 0 image).st.log = st.log ++ FileOp.fseek f pos rc :: rest
        ∧ pos = (H + (szMul impl.dim.getItemSize t.size + impl.pad) * (SIZE_MOD - 1)) % SIZE_MOD
        ∧ (pos + (szMul impl.dim.getItemSize t.size + impl.pad)) % SIZE_MOD = H % SIZE_MOD
        ∧ rc = env.fseek st.log f pos
        ∧ (rc = 0 →
            (env.fread (st.log ++ [FileOp.fseek f pos rc]) f
              (szMul impl.dim.getItemSize t.size)).1 = 1 →
            ( ImageIO.read env fmt st 0 image).err = none))
    ∧ (image.getType = impl.type →
        ∃ pos rc rest,
          ( ImageIO.write env fmt st 0 image).st.log = st.log ++ FileOp.fseek f pos rc :: rest
          ∧ pos = (H + (szMul impl.dim.getItemSize t.size + impl.pad) * (SIZE_MOD - 1))
              % SIZE_MOD
          ∧ (pos + (szMul impl.dim.getItemSize t.size + impl.pad)) % SIZE_MOD = H % SIZE_MOD
          ∧ rc = env.fseek st.log f pos
          ∧ (rc = 0 → ( ImageIO.write env fmt st 0 image).err = none)) := by
  obtain ⟨-, hpos, hback⟩ := itemPos_zero H impl.pad (szMul impl.dim.getItemSize t.size)
  refine ⟨rfl, ?_, fun himg => ?_⟩
  · obtain ⟨rest, hlog, -⟩ := read_log env fmt st impl t f H 0 image hopen hfile htype hH
    have herr := read_err env fmt st impl t f H 0 image hopen hfile htype hH
    refine ⟨_, _, rest, hlog, hpos, hback, rfl, fun hrc hfr => ?_⟩
    rw [herr, if_neg (not_not.mpr hrc), if_neg (not_not.mpr hfr)]
  · obtain ⟨rest, hlog, -⟩ :=
      write_log env fmt st impl t f H 0 image hopen hfile htype hH himg
    have herr := write_err env fmt st impl t f H 0 image hopen hfile htype hH himg
    refine ⟨_, _, rest, hlog, hpos, hback, rfl, fun hrc => ?_⟩
    rw [herr, if_neg (not_not.mpr hrc)]

/-- Witness of C24: index 0 on the demo session (H = 512, item size 400, no
padding): the position is 512 - 400 = 112, and both calls succeed. -/
theorem C24_index_zero_wraps_witness :
    demoRWOpened.impl = some demoRWImpl ∧ demoRWImpl.file = some 3
    ∧ (∃ pos rc rest,
        ( ImageIO.read demoEnv demoFormat demoRWOpened 0 demoFloatImage).st.log
          = demoRWOpened.log ++ FileOp.fseek 3 pos rc :: rest
        ∧ pos = (512 + (szMul demoRWImpl.dim.getItemSize TypeFloat.size + demoRWImpl.pad)
              * (SIZE_MOD - 1)) % SIZE_MOD
        ∧ (pos + (szMul demoRWImpl.dim.getItemSize TypeFloat.size + demoRWImpl.pad)) % SIZE_MOD
            = 512 % SIZE_MOD
        ∧ rc = demoEnv.fseek demoRWOpened.log 3 pos
        ∧ (rc = 0 →
            (demoEnv.fread (demoRWOpened.log ++ [FileOp.fseek 3 pos rc]) 3
              (szMul demoRWImpl.dim.getItemSize TypeFloat.size)).1 = 1 →
            ( ImageIO.read demoEnv demoFormat demoRWOpened 0 demoFloatImage).err = none))
    ∧ ( ImageIO.read demoEnv demoFormat demoRWOpened 0 demoFloatImage).st.log
        = demoRWOpened.log ++ [FileOp.fseek 3 112 0, FileOp.fread 3 400 1]
    ∧ ( ImageIO.read demoEnv demoFormat demoRWOpened 0 demoFloatImage).err = none
    ∧ ( ImageIO.write demoEnv demoFormat demoRWOpened 0 demoFloatImage).err = none :=
  ⟨rfl, rfl,
   (C24_index_zero_wraps demoEnv demoFormat demoRWOpened demoRWImpl TypeFloat 3 512
      demoFloatImage rfl rfl rfl (fun _ => rfl)).2.1,
   rfl, rfl, rfl⟩

/-- C26: `read(index, image)` on an opened session hands back an image with
the file's dimensions and `n = 1`; an image that had no element type has the
file's element type, any other image has kept its own.  In both cases the
`fread`, when the `fseek` succeeds, asks for `dim.itemSize * fileType.size`
bytes, one item of the file's type: `dim.n` and the image's type do not enter
this number. -/
theorem C26_read_resizes_and_requests_one_item (env : Env) (fmt : Format) (st : State)
    (impl : ImageIOImpl) (t : EmType) (f H i : Nat) (image : Image)
    (hopen : st.impl = some impl) (hfile : impl.file = some f) (htype : impl.type = some t)
    (hH : ∀ im : Image, fmt.getHeaderSize { impl with image := im } = H) :
    ( ImageIO.read env fmt st i image).image.dim
        = ⟨impl.dim.x, impl.dim.y, impl.dim.z, 1⟩
    ∧ (image.getType = none → ( ImageIO.read env fmt st i image).image.type = some t)
    ∧ (∀ u, image.getType = some u → ( ImageIO.read env fmt st i image).image.type = some u)
    ∧ (∃ pos rc rest,
        ( ImageIO.read env fmt st i image).st.log = st.log ++ FileOp.fseek f pos rc :: rest
        ∧ (rest = [] ∨ ∃ r, rest
            = [FileOp.fread f (szMul (szMul (szMul impl.dim.x impl.dim.y) impl.dim.z) t.size) r])
        ∧ (rc = 0 → rest ≠ [])) := by
  obtain ⟨hdim, hty⟩ := read_image env fmt st impl t f i image hopen hfile htype
  refine ⟨hdim, fun hn => ?_, fun u hu => ?_, ?_⟩
  · rw [hty, if_pos hn]
  · rw [hty, hu]
    simp
  · obtain ⟨rest, hlog, hrest⟩ := read_log env fmt st impl t f H i image hopen hfile htype hH
    refine ⟨_, _, rest, hlog, hrest, fun hrc hnil => ?_⟩
    obtain ⟨r, hok⟩ := read_log_ok env fmt st impl t f H i image hopen hfile htype hH hrc
    rw [hnil, hok] at hlog
    simp at hlog

/-- Witness of C26: on the demo session an image without a type comes back as
a 10x10 single-precision image with `n = 1`, an `Int32` image keeps its type,
and 400 bytes are asked of the file. -/
theorem C26_read_resizes_and_requests_one_item_witness :
    demoOpened.impl = some demoImpl ∧ demoImpl.file = some 3 ∧ demoImpl.type = some TypeFloat
    ∧ ( ImageIO.read demoEnv demoFormat demoOpened 1 Image.empty).image.dim
        = ⟨demoImpl.dim.x, demoImpl.dim.y, demoImpl.dim.z, 1⟩
    ∧ ( ImageIO.read demoEnv demoFormat demoOpened 1 Image.empty).image.type = some TypeFloat
    ∧ ( ImageIO.read demoEnv demoFormat demoOpened 1 demoInt32Image).image.type
        = some TypeInt32
    ∧ ( ImageIO.read demoEnv demoFormat demoOpened 1 demoInt32Image).st.log
        = demoOpened.log ++ [FileOp.fseek 3 512 0, FileOp.fread 3 400 1] :=
  ⟨rfl, rfl, rfl,
   (C26_read_resizes_and_requests_one_item demoEnv demoFormat demoOpened demoImpl TypeFloat
      3 512 1 Image.empty rfl rfl rfl (fun _ => rfl)).1,
   (C26_read_resizes_and_requests_one_item demoEnv demoFormat demoOpened demoImpl TypeFloat
      3 512 1 Image.empty rfl rfl rfl (fun _ => rfl)).2.1 rfl,
   (C26_read_resizes_and_requests_one_item demoEnv demoFormat demoOpened demoImpl TypeFloat
      3 512 1 demoInt32Image rfl rfl rfl (fun _ => rfl)).2.2.1 TypeInt32 rfl,
   rfl⟩

/-! ## Image headers -/

/-- C25: every image a program can reach holds at least one header
dictionary, so `getHeader(0)` is valid.  The empty constructor and the
(dim, type) constructor make exactly `headers[0]`; the copy constructor makes
`headers[0]` and then, like copy assignment, takes the header list of the
source, so a copied image has the same headers as its source. -/
theorem C25_image_has_header (img : Image) (hreach : Image.Reachable img) :
    img.headers ≠ []
    ∧ (∃ dict, img.getHeader 0 = some dict)
    ∧ Image.empty.headers = [[]]
    ∧ (∀ adim type, ( Image.create adim type).headers = [[]])
    ∧ (∀ other : Image, ( Image.copy other).headers = other.headers)
    ∧ (∀ self other : Image, ( Image.assign self other).headers = other.headers) := by
  have hne : img.headers ≠ [] := by
    induction hreach with
    | empty => simp [Image.empty]
    | create adim type => simp [Image.create]
    | copy other _ ih => simpa [Image.copy, Image.assign] using ih
    | assign self other _ _ _ ih => simpa [Image.assign] using ih
    | resize im adim type _ ih => simpa [Image.resize] using ih
    | setHeader im index dict _ ih =>
      intro h
      apply ih
      have hlen : (im.headers.set index dict).length = 0 := by
        simp only at h
        rw [h]
        rfl
      rw [List.length_set] at hlen
      exact List.length_eq_zero.mp hlen
    | setData im data _ ih => simpa using ih
  refine ⟨hne, ?_, rfl, fun _ _ => rfl, fun _ => rfl, fun _ _ => rfl⟩
  unfold Image.getHeader
  cases hh : img.headers with
  | nil => exact absurd hh hne
  | cons d rest => exact ⟨d, rfl⟩

/-- Witness of C25: the copy of an image made with the (dim, type)
constructor and read into. -/
theorem C25_image_has_header_witness :
    Image.Reachable ( Image.copy ( Image.create ⟨10, 10, 1, 1⟩ TypeFloat))
    ∧ ( Image.copy ( Image.create ⟨10, 10, 1, 1⟩ TypeFloat)).headers ≠ []
    ∧ (∃ dict, ( Image.copy ( Image.create ⟨10, 10, 1, 1⟩ TypeFloat)).getHeader 0 = some dict) :=
  ⟨Image.Reachable.copy _ ( Image.Reachable.create _ _),
   (C25_image_has_header _ ( Image.Reachable.copy _ ( Image.Reachable.create _ _))).1,
   (C25_image_has_header _ ( Image.Reachable.copy _ ( Image.Reachable.create _ _))).2.1⟩

/-! ## Columns -/

/-- No column of a map has an id above `maxId`. -/
theorem le_maxId (m : ColumnMap) (c : Column) (hc : c ∈ m) : c.id ≤ ColumnMap.maxId m := by
  induction m with
  | nil => cases hc
  | cons d rest ih =>
    unfold ColumnMap.maxId
    rcases List.mem_cons.mp hc with h | h
    · rw [h]
      exact Nat.le_max_left _ _
    · exact Nat.le_trans (ih h) (Nat.le_max_right _ _)

/-- The largest id after one more column. -/
theorem maxId_append (m : ColumnMap) (c : Column) :
    ColumnMap.maxId (m ++ [c]) = max (ColumnMap.maxId m) c.id := by
  induction m with
  | nil => simp [ColumnMap.maxId]
  | cons d rest ih =>
    show max d.id (ColumnMap.maxId (rest ++ [c]))
      = max (max d.id (ColumnMap.maxId rest)) c.id
    rw [ih]
    omega

/-- The duplicate test finds a column with the same id or name. -/
theorem hasDuplicate_iff (m : ColumnMap) (column : Column) :
    ColumnMap.hasDuplicate m column = true
      ↔ ∃ c ∈ m, c.id = column.id ∨ c.name = column.name := by
  unfold ColumnMap.hasDuplicate
  simp [List.any_eq_true]

/-- The ids a sequence of `addColumn` calls assigns are above every id the map
held before, and each is above the ones assigned before it. -/
theorem addColumns_increasing (cols : List Column) (m : ColumnMap) :
    (ColumnMap.addColumns m cols).2.Pairwise (fun a b => a < b)
    ∧ ∀ id ∈ (ColumnMap.addColumns m cols).2, ColumnMap.maxId m < id := by
  induction cols generalizing m with
  | nil => simp [ColumnMap.addColumns]
  | cons column rest ih =>
    unfold ColumnMap.addColumns ColumnMap.addColumn
    by_cases hdup : ColumnMap.hasDuplicate m column = true
    · simp only [hdup, if_true]
      exact ih m
    · simp only [hdup, Bool.false_eq_true, if_false]
      obtain ⟨hpw, hgt⟩ := ih (m ++ [ColumnMap.withId m column])
      have hmax := maxId_append m (ColumnMap.withId m column)
      by_cases hno : column.id = NO_ID
      · simp only [hno, if_true]
        have hid : (ColumnMap.withId m column).id = ColumnMap.maxId m + 1 := by
          simp [ColumnMap.withId, hno]
        rw [hid] at hmax
        have hmax2 : ColumnMap.maxId (m ++ [ColumnMap.withId m column])
            = ColumnMap.maxId m + 1 := by
          rw [hmax]
          omega
        constructor
        · rw [List.pairwise_cons]
          refine ⟨fun b hb => ?_, hpw⟩
          have := hgt b hb
          omega
        · intro id hid2
          rcases List.mem_cons.mp hid2 with h | h
          · omega
          · have := hgt id h
            omega
      · simp only [hno, if_false]
        refine ⟨hpw, fun id hid2 => ?_⟩
        have := hgt id hid2
        have hle : ColumnMap.maxId m ≤ ColumnMap.maxId (m ++ [ColumnMap.withId m column]) := by
          rw [hmax]
          exact Nat.le_max_left _ _
        omega

/-- C22: `ColumnMap::addColumn` fails with the duplicate-column error (the map
stays as it was) whenever the id or the name of the new column equals that of
an existing column; otherwise it appends the column and returns its index.  A
column added without id receives an id above every id in the map, hence not
used by any existing column; and in every sequence of `addColumn` calls the
ids assigned in this way are strictly increasing.  For instance adding "x"
with id 1, then "y" and "z" without id, assigns the ids 2 and 3, and adding
"x" again fails. -/
theorem C22_addColumn (m : ColumnMap) (column : Column) :
    ((∃ c ∈ m, c.id = column.id ∨ c.name = column.name) →
        ColumnMap.addColumn m column = Except.error TableError.duplicateColumn)
    ∧ ((∀ c ∈ m, c.id ≠ column.id ∧ c.name ≠ column.name) →
        ∃ stored : Column,
          ColumnMap.addColumn m column = Except.ok (m.length, m ++ [stored])
          ∧ stored.name = column.name ∧ stored.type = column.type
          ∧ (column.id ≠ NO_ID → stored.id = column.id)
          ∧ (column.id = NO_ID → ∀ c ∈ m, c.id < stored.id))
    ∧ (∀ cols : List Column,
        (ColumnMap.addColumns m cols).2.Pairwise (fun a b => a < b)
        ∧ ∀ id ∈ (ColumnMap.addColumns m cols).2, ∀ c ∈ m, c.id < id)
    ∧ ColumnMap.addColumn [columnX] columnX = Except.error TableError.duplicateColumn
    ∧ (ColumnMap.addColumns [] [columnX, columnY, columnX, columnZ]).2 = [2, 3] := by
  refine ⟨fun hdup => ?_, fun hnew => ?_, fun cols => ?_, rfl, by decide⟩
  · unfold ColumnMap.addColumn
    rw [if_pos ((hasDuplicate_iff m column).mpr hdup)]
  · have hnd : ¬ ColumnMap.hasDuplicate m column = true := by
      rw [hasDuplicate_iff]
      rintro ⟨c, hc, h | h⟩
      · exact (hnew c hc).1 h
      · exact (hnew c hc).2 h
    refine ⟨ColumnMap.withId m column, ?_, rfl, rfl, fun hid => ?_, fun hid c hc => ?_⟩
    · unfold ColumnMap.addColumn
      rw [if_neg hnd]
    · simp [ColumnMap.withId, hid]
    · have hle := le_maxId m c hc
      simp only [ColumnMap.withId, hid, if_true]
      omega
  · obtain ⟨hpw, hgt⟩ := addColumns_increasing cols m
    refine ⟨hpw, fun id hid c hc => ?_⟩
    have h1 := hgt id hid
    have h2 := le_maxId m c hc
    omega

/-! ## Tables -/

/-- Mapping a function over a list commutes with inserting an element. -/
theorem map_insertAt {α β : Type} (f : α → β) (l : List α) (pos : Nat) (x : α) :
    (insertAt l pos x).map f = insertAt (l.map f) pos (f x) := by
  simp [insertAt, List.map_take, List.map_drop]

/-- Mapping a function over a list commutes with removing an element. -/
theorem map_removeAt {α β : Type} (f : α → β) (l : List α) (pos : Nat) :
    (removeAt l pos).map f = removeAt (l.map f) pos := by
  simp [removeAt, List.map_take, List.map_drop]

/-- Mapping a function over a list commutes with moving an element. -/
theorem map_moveAt {α β : Type} (f : α → β) (l : List α) (src dst : Nat) :
    (moveAt l src dst).map f = moveAt (l.map f) src dst := by
  unfold moveAt
  simp only [List.get?_eq_getElem?, List.getElem?_map]
  cases h : l[src]? with
  | none => simp
  | some x => simp [map_insertAt, map_removeAt]

/-- The type of the column as the map stores it. -/
theorem withId_type (m : ColumnMap) (col : Column) :
    (ColumnMap.withId m col).type = col.type := rfl

/-- Dropping a column keeps the schema invariant. -/
theorem conforms_dropColumnAt (t : Table) (index : Nat) (h : t.conforms) :
    (Table.dropColumnAt t index).conforms := by
  intro row hrow
  simp only [Table.dropColumnAt, List.mem_map] at hrow
  obtain ⟨r, hr, rfl⟩ := hrow
  simp only [Table.dropColumnAt]
  rw [map_removeAt, map_removeAt, h r hr]

/-- Moving a column keeps the schema invariant. -/
theorem conforms_moveColumnAt (t : Table) (index pos : Nat) (h : t.conforms) :
    (Table.moveColumnAt t index pos).conforms := by
  intro row hrow
  simp only [Table.moveColumnAt, List.mem_map] at hrow
  obtain ⟨r, hr, rfl⟩ := hrow
  simp only [Table.moveColumnAt]
  rw [map_moveAt, map_moveAt, h r hr]

/-- A table without rows satisfies the schema invariant. -/
theorem conforms_of_no_rows (t : Table) (h : t.rows.isEmpty = true) : t.conforms := by
  intro row hrow
  rw [List.isEmpty_iff] at h
  rw [h] at hrow
  cases hrow

/-- Every operation that succeeds keeps the schema invariant. -/
theorem conforms_apply (t t2 : Table) (op : ColumnOp) (h : t.conforms)
    (hop : Table.apply t op = Except.ok t2) : t2.conforms := by
  cases op with
  | add col =>
    simp only [Table.apply, Table.addColumn] at hop
    by_cases hr : t.rows.isEmpty = true
    · apply conforms_of_no_rows
      simp only [hr, if_true] at hop
      cases hc : ColumnMap.addColumn t.columns col with
      | error e => simp [hc] at hop
      | ok r =>
        simp only [hc, Except.ok.injEq] at hop
        rw [← hop]
        exact hr
    · simp [hr] at hop
  | addDefault col v =>
    simp only [Table.apply, Table.addColumnDefault] at hop
    by_cases hv : v.type = some col.type
    · simp only [hv, if_true] at hop
      unfold ColumnMap.addColumn at hop
      by_cases hd : ColumnMap.hasDuplicate t.columns col = true
      · simp [hd] at hop
      · simp only [hd, Bool.false_eq_true, if_false, Except.ok.injEq] at hop
        rw [← hop]
        intro row hrow
        simp only [List.mem_map] at hrow
        obtain ⟨r, hr, rfl⟩ := hrow
        simp only [List.map_append, List.map_cons, List.map_nil, h r hr, hv, withId_type]
    · simp [hv] at hop
  | insert col pos =>
    simp only [Table.apply, Table.insertColumn] at hop
    by_cases hr : t.rows.isEmpty = true
    · apply conforms_of_no_rows
      simp only [hr, if_true] at hop
      by_cases hd : ColumnMap.hasDuplicate t.columns col = true
      · simp [hd] at hop
      · by_cases hp : t.columns.length < pos
        · simp [hd, hp] at hop
        · simp only [hd, hp, Bool.false_eq_true, if_false, Except.ok.injEq] at hop
          rw [← hop]
          exact hr
    · simp [hr] at hop
  | insertDefault col pos v =>
    simp only [Table.apply, Table.insertColumnDefault] at hop
    by_cases hv : v.type = some col.type
    · by_cases hd : ColumnMap.hasDuplicate t.columns col = true
      · simp [hv, hd] at hop
      · by_cases hp : t.columns.length < pos
        · simp [hv, hd, hp] at hop
        · simp only [hv, hd, hp, Bool.false_eq_true, if_true, if_false, Except.ok.injEq] at hop
          rw [← hop]
          intro row hrow
          simp only [List.mem_map] at hrow
          obtain ⟨r, hr, rfl⟩ := hrow
          simp only
          rw [map_insertAt, map_insertAt, h r hr, hv, withId_type]
    · simp [hv] at hop
  | remove colId =>
    simp only [Table.apply, Table.removeColumn] at hop
    cases hi : ColumnMap.indexOf (fun c => c.id == colId) t.columns with
    | none => simp [hi] at hop
    | some index =>
      simp only [hi, Except.ok.injEq] at hop
      rw [← hop]
      exact conforms_dropColumnAt t index h
  | removeByName colName =>
    simp only [Table.apply, Table.removeColumnByName] at hop
    cases hi : ColumnMap.indexOf (fun c => c.name == colName) t.columns with
    | none => simp [hi] at hop
    | some index =>
      simp only [hi, Except.ok.injEq] at hop
      rw [← hop]
      exact conforms_dropColumnAt t index h
  | move colId pos =>
    simp only [Table.apply, Table.moveColumn] at hop
    cases hi : ColumnMap.indexOf (fun c => c.id == colId) t.columns with
    | none => simp [hi] at hop
    | some index =>
      by_cases hp : t.columns.length ≤ pos
      · simp [hi, hp] at hop
      · simp only [hi, hp, if_false, Except.ok.injEq] at hop
        rw [← hop]
        exact conforms_moveColumnAt t index pos h
  | moveByName colName pos =>
    simp only [Table.apply, Table.moveColumnByName] at hop
    cases hi : ColumnMap.indexOf (fun c => c.name == colName) t.columns with
    | none => simp [hi] at hop
    | some index =>
      by_cases hp : t.columns.length ≤ pos
      · simp [hi, hp] at hop
      · simp only [hi, hp, if_false, Except.ok.injEq] at hop
        rw [← hop]
        exact conforms_moveColumnAt t index pos h

/-- Every sequence of operations keeps the schema invariant. -/
theorem conforms_applyAll (ops : List ColumnOp) (t : Table) (h : t.conforms) :
    (Table.applyAll t ops).conforms := by
  induction ops generalizing t with
  | nil => exact h
  | cons op rest ih =>
    unfold Table.applyAll
    rw [List.foldl_cons]
    cases hop : Table.apply t op with
    | error e => exact ih t h
    | ok t2 => exact ih t2 (conforms_apply t t2 op h hop)

/-- C23: for every table whose rows match its columns, and every sequence of
`addColumn` (with or without default value), `insertColumn`, `removeColumn`
and `moveColumn` operations, afterwards every row has exactly as many values
as the table has columns and the type of each value is the type of the column
at the same position; the number of rows is unchanged.  `addColumn` without a
default value is rejected as soon as the table has a row. -/
theorem C23_table_schema_invariant (t : Table) (ops : List ColumnOp) (h : t.conforms) :
    (Table.applyAll t ops).conforms
    ∧ (∀ row ∈ (Table.applyAll t ops).rows,
        row.length = (Table.applyAll t ops).columns.length
        ∧ ∀ i (o : Object) (c : Column), row.get? i = some o →
            (Table.applyAll t ops).columns.get? i = some c → o.type = some c.type)
    ∧ (∀ col : Column, t.rows ≠ [] →
        Table.addColumn t col = Except.error TableError.usageError) := by
  have hc := conforms_applyAll ops t h
  refine ⟨hc, fun row hrow => ⟨?_, fun i o c ho hcol => ?_⟩, fun col hne => ?_⟩
  · have := congrArg List.length (hc row hrow)
    simpa using this
  · have hmap := hc row hrow
    have h1 : (row.map (fun o => o.type)).get? i = some o.type := by
      simp only [List.get?_eq_getElem?, List.getElem?_map] at ho ⊢
      rw [ho]
      rfl
    have h2 : ((Table.applyAll t ops).columns.map (fun c => some c.type)).get? i
        = some (some c.type) := by
      simp only [List.get?_eq_getElem?, List.getElem?_map] at hcol ⊢
      rw [hcol]
      rfl
    rw [hmap, h2] at h1
    exact (Option.some.inj h1).symm
  · unfold Table.addColumn
    have hemp : ¬ t.rows.isEmpty = true := by
      rw [List.isEmpty_iff]
      exact hne
    rw [if_neg hemp]

/-- Witness of C23: `demoTable` (columns "x", "y"; two rows) after `demoOps`
has the columns "w", "z", "x" and two rows of three values of the types
`Int32`, `Float`, `Int32`. -/
theorem C23_table_schema_invariant_witness :
    demoTable.conforms
    ∧ (Table.applyAll demoTable demoOps).conforms
    ∧ (Table.applyAll demoTable demoOps).columns.map (fun c => c.name) = ["w", "z", "x"]
    ∧ (Table.applyAll demoTable demoOps).rows.map (fun row => row.map (fun o => o.type))
        = [[some TypeInt32, some TypeFloat, some TypeInt32],
           [some TypeInt32, some TypeFloat, some TypeInt32]]
    ∧ Table.addColumn demoTable columnZ = Except.error TableError.usageError :=
  have hdemo : demoTable.conforms := by
    intro row hrow
    simp only [demoTable, List.mem_cons, List.mem_singleton, List.not_mem_nil, or_false] at hrow
    rcases hrow with h | h <;> rw [h] <;> rfl
  ⟨hdemo, (C23_table_schema_invariant demoTable demoOps hdemo).1, by decide, by decide,
   (C23_table_schema_invariant demoTable demoOps hdemo).2.2 columnZ (by decide)⟩

end em
